import Mathlib

set_option maxHeartbeats 1000000
set_option maxRecDepth 10000

/-!
Verification development for the capture orchestration layer of the
Screen-AI-Translator repository (`src/core/hook_client.py`,
`src/ui/main_window.py`, `hook_agent.py`).

Texts are modelled as `List Char`; wall-clock instants as rationals
(seconds on the Python side, milliseconds inside the injected agent
script, matching the units each side uses).  Python's `hash` builtin is
an abstract parameter `hash : Text → Int` of every function that uses
it, since its concrete value is process-randomised.
-/

namespace ScreenTranslator

abbrev Text := List Char

/-- Whitespace predicate used by both Python `str.strip()` and the JS
`String.prototype.trim()` for the characters occurring in this
development (ASCII whitespace plus the ideographic space U+3000). -/
def isWs (c : Char) : Bool :=
  c == ' ' || c == '\t' || c == '\n' || c == '\r' || c == '\x0b' || c == '\x0c' ||
    c == '　'

/-- Left strip, `str.lstrip()`. -/
def lstrip (s : Text) : Text := s.dropWhile isWs

/-- Right strip, `str.rstrip()`. -/
def rstrip (s : Text) : Text := (s.reverse.dropWhile isWs).reverse

/-- Python `str.strip()` (both ends). -/
def pstrip (s : Text) : Text := rstrip (lstrip s)

/-- Python slicing `s[:n]` as used for truncation, applied only when the
text exceeds the bound (mirrors `if len(payload) > n: payload = payload[:n]`). -/
def truncTo (n : ℕ) (s : Text) : Text := if s.length > n then s.take n else s

/-- `list.startswith` / JS `startsWith`. -/
def jsStartsWith (s pat : Text) : Bool := pat.isPrefixOf s

/-- `str.lower()` on the ASCII range used here. -/
def lowerText (s : Text) : Text := s.map Char.toLower

/-- Python `set.add` on the model of a `set[int]` (insertion order kept
only as a modelling convenience; sets expose membership only). -/
def setAdd (s : List Int) (h : Int) : List Int := if h ∈ s then s else s ++ [h]

/-- Python `set.discard`. -/
def setDiscard (s : List Int) (h : Int) : List Int := s.erase h

/-! ### `HookTextThread` state (src/core/hook_client.py, lines 130-260)

The mutable attributes of the thread that the dedup/debounce/emission
logic reads and writes, plus the observable output streams
(`text_received` / `status` signal emissions, recorded in order). -/

structure HookState where
  pid : Int
  minChars : ℕ
  maxChars : ℕ
  debounceMs : ℕ
  lastEmitTs : ℚ
  lastText : Text
  /-- `self._seen`, a `deque(maxlen=300)` of text hashes; head = oldest. -/
  seen : List Int
  /-- `self._seen_set`, the companion membership set. -/
  seenSet : List Int
  preferFridaOnly : Bool
  /-- Payloads emitted on the `text_received` signal, in order. -/
  emitted : List Text
  /-- Messages emitted on the `status` signal, in order. -/
  statusEmitted : List Text
deriving DecidableEq

/-- `HookTextThread.__init__` (lines 134-178): the integer parameters
are clamped (`min_chars ≥ 1`, `max_chars ≥ min_chars`,
`debounce_ms ≥ 30`) and the dedup state starts empty. -/
def hookInit (pid : Int) (minChars maxChars debounceMs : Int)
    (preferFridaOnly : Bool) : HookState :=
  let mn : ℕ := (max 1 minChars).toNat
  let mx : ℕ := (max (mn : Int) maxChars).toNat
  let db : ℕ := (max 30 debounceMs).toNat
  { pid := pid, minChars := mn, maxChars := mx, debounceMs := db
    lastEmitTs := 0, lastText := []
    seen := [], seenSet := []
    preferFridaOnly := preferFridaOnly
    emitted := [], statusEmitted := [] }

/-- Default-parameter construction used by the claims
(`min_chars=1, max_chars=200, debounce_ms=120`). -/
def hookInitDefault : HookState := hookInit 0 1 200 120 false

/-- `HookTextThread._seen_add` (lines 207-221): reject if the hash is
already in the membership set; otherwise, when the ring is at capacity
(300), pop the oldest entry and discard it from the set, then append
the hash to both.  The final `drop` mirrors the deque's `maxlen=300`
auto-eviction, which never fires on reachable states. -/
def seen_add (st : HookState) (h : Int) : Bool × HookState :=
  if h ∈ st.seenSet then (false, st)
  else
    let st1 :=
      if st.seen.length ≥ 300 then
        match st.seen with
        | [] => st
        | old :: rest => { st with seen := rest, seenSet := setDiscard st.seenSet old }
      else st
    let appended := st1.seen ++ [h]
    (true, { st1 with seen := appended.drop (appended.length - 300)
                      seenSet := setAdd st1.seenSet h })

/-- `HookTextThread._should_emit` (lines 223-230).  `now` is
`time.time()` in seconds; the debounce compares
`(now - last) * 1000 < debounce_ms`. -/
def should_emit (hash : Text → Int) (st : HookState) (text : Text) (now : ℚ) :
    Bool × HookState :=
  if text = st.lastText ∧ (now - st.lastEmitTs) * 1000 < (st.debounceMs : ℚ) then
    (false, st)
  else
    let st1 := { st with lastText := text, lastEmitTs := now }
    seen_add st1 (hash text)

/-- `HookTextThread._emit_text` (lines 232-245): strip, drop empties,
truncate to `max_chars`, consult `_should_emit`, then emit.  (The
`min_chars` check is commented out in the source and hence absent.) -/
def emit_text (hash : Text → Int) (st : HookState) (text : Text) (now : ℚ) :
    HookState :=
  let payload := pstrip text
  if payload = [] then st
  else
    let payload := truncTo st.maxChars payload
    match should_emit hash st payload now with
    | (true, st1) => { st1 with emitted := st1.emitted ++ [payload] }
    | (false, st1) => st1

/-- `HookTextThread._emit_text_with_source` (lines 247-260): drops
accessibility/win-event text when `prefer_frida_only` is set, then
forwards the stripped payload to `_emit_text`. -/
def emit_text_with_source (hash : Text → Int) (st : HookState) (text : Text)
    (source : Text) (now : ℚ) : HookState :=
  let payload := pstrip text
  if payload = [] then st
  else if st.preferFridaOnly ∧ (source = "uia".toList ∨ source = "win_event".toList) then st
  else emit_text hash st payload now

/-- The tail of `_win_event_proc` (lines 2785-2801) once a qualifying
event for the target PID has been identified and the control text has
been read: strip, bounds-check, truncate, consult `_should_emit`, and
forward through `_emit_text_with_source`.  `now1` is the clock at the
`_should_emit` call inside the callback, `now2` at the one inside
`_emit_text`. -/
def win_event_handle (hash : Text → Int) (st : HookState) (readText : Text)
    (now1 now2 : ℚ) : HookState :=
  let text := pstrip readText
  if text = [] then st
  else if text.length < st.minChars then st
  else
    let text := truncTo st.maxChars text
    match should_emit hash st text now1 with
    | (false, st1) => st1
    | (true, st1) => emit_text_with_source hash st1 text "win_event".toList now2

/-! ### Basic lemmas about the text primitives -/

theorem dropWhile_self (p : Char → Bool) (l : Text) :
    (l.dropWhile p).dropWhile p = l.dropWhile p := by
  induction l with
  | nil => rfl
  | cons a t ih =>
    by_cases h : p a
    · simp [List.dropWhile_cons, h, ih]
    · simp [List.dropWhile_cons, h]

theorem dropWhile_append_last (p : Char → Bool) (l : Text) (a : Char)
    (h : p a = false) : (l ++ [a]).dropWhile p = l.dropWhile p ++ [a] := by
  induction l with
  | nil => simp [List.dropWhile_cons, h]
  | cons b t ih =>
    by_cases hb : p b
    · simp [List.dropWhile_cons, hb, ih]
    · simp [List.dropWhile_cons, hb]

theorem lstrip_head_not_ws (s : Text) (a : Char) (t : Text)
    (h : lstrip s = a :: t) : isWs a = false := by
  induction s with
  | nil => simp [lstrip] at h
  | cons b r ih =>
    by_cases hb : isWs b
    · exact ih (by simpa [lstrip, List.dropWhile_cons, hb] using h)
    · simp only [lstrip, List.dropWhile_cons, hb, if_false] at h
      obtain ⟨rfl, rfl⟩ := List.cons.inj h
      simpa using hb

theorem rstrip_idem (s : Text) : rstrip (rstrip s) = rstrip s := by
  simp [rstrip, List.reverse_reverse, dropWhile_self]

theorem lstrip_rstrip_lstrip (s : Text) :
    lstrip (rstrip (lstrip s)) = rstrip (lstrip s) := by
  cases hD : lstrip s with
  | nil => simp [rstrip, lstrip]
  | cons a t =>
    have ha : isWs a = false := lstrip_head_not_ws s a t hD
    have : rstrip (a :: t) = a :: (t.reverse.dropWhile isWs).reverse := by
      simp [rstrip, dropWhile_append_last isWs t.reverse a ha]
    rw [this]
    simp [lstrip, List.dropWhile_cons, ha]

theorem lstrip_pstrip (s : Text) : lstrip (pstrip s) = pstrip s := by
  simp [pstrip, lstrip_rstrip_lstrip]

theorem pstrip_idem (s : Text) : pstrip (pstrip s) = pstrip s := by
  have h1 := lstrip_rstrip_lstrip s
  simp only [pstrip] at *
  rw [h1, rstrip_idem]

theorem truncTo_idem (n : ℕ) (s : Text) : truncTo n (truncTo n s) = truncTo n s := by
  by_cases h : s.length > n
  · have hlen : (s.take n).length = n := by rw [List.length_take]; omega
    simp [truncTo, h, hlen]
  · simp [truncTo, h]

theorem truncTo_length_le (n : ℕ) (s : Text) : (truncTo n s).length ≤ max n s.length := by
  by_cases h : s.length > n
  · simp only [truncTo, h, if_true, List.length_take]
    omega
  · simp [truncTo, h]

theorem setAdd_mem (s : List Int) (h : Int) : h ∈ setAdd s h := by
  by_cases hm : h ∈ s <;> simp [setAdd, hm]

/-! ### Projection lemmas for the dedup pipeline -/

theorem seen_add_proj (st : HookState) (h : Int) :
    (seen_add st h).2.lastText = st.lastText ∧
    (seen_add st h).2.lastEmitTs = st.lastEmitTs ∧
    (seen_add st h).2.debounceMs = st.debounceMs ∧
    (seen_add st h).2.emitted = st.emitted ∧
    (seen_add st h).2.statusEmitted = st.statusEmitted ∧
    (seen_add st h).2.maxChars = st.maxChars ∧
    (seen_add st h).2.minChars = st.minChars ∧
    (seen_add st h).2.preferFridaOnly = st.preferFridaOnly ∧
    (seen_add st h).2.pid = st.pid := by
  unfold seen_add
  by_cases hm : h ∈ st.seenSet
  · simp [hm]
  · by_cases hl : st.seen.length ≥ 300
    · cases hseen : st.seen with
      | nil => simp [hm, hl, hseen]
      | cons a r =>
        have hr : 299 ≤ r.length := by
          rw [hseen] at hl; simpa using hl
        simp [hm, hl, hseen, hr]
    · simp [hm, hl]

theorem seen_add_fresh (st : HookState) (h : Int) (hm : h ∉ st.seenSet) :
    (seen_add st h).1 = true := by
  unfold seen_add
  simp [hm]

theorem seen_add_true_mem (st : HookState) (h : Int)
    (ht : (seen_add st h).1 = true) : h ∈ (seen_add st h).2.seenSet := by
  by_cases hm : h ∈ st.seenSet
  · simp [seen_add, hm] at ht
  · unfold seen_add
    by_cases hl : st.seen.length ≥ 300
    · cases hseen : st.seen with
      | nil => simpa [hm, hl, hseen] using setAdd_mem st.seenSet h
      | cons a r =>
        have hr : 299 ≤ r.length := by
          rw [hseen] at hl; simpa using hl
        simpa [hm, hl, hseen, hr] using setAdd_mem (setDiscard st.seenSet a) h
    · simpa [hm, hl] using setAdd_mem st.seenSet h

theorem should_emit_unfold_fresh (hash : Text → Int) (st : HookState) (t : Text) (now : ℚ)
    (hc : ¬(t = st.lastText ∧ (now - st.lastEmitTs) * 1000 < (st.debounceMs : ℚ))) :
    should_emit hash st t now =
      seen_add { st with lastText := t, lastEmitTs := now } (hash t) := by
  simp only [should_emit, hc, if_false]

theorem should_emit_reject (hash : Text → Int) (st : HookState) (t : Text) (now : ℚ)
    (hc : t = st.lastText ∧ (now - st.lastEmitTs) * 1000 < (st.debounceMs : ℚ)) :
    should_emit hash st t now = (false, st) := by
  unfold should_emit
  rw [if_pos hc]

theorem should_emit_proj (hash : Text → Int) (st : HookState) (t : Text) (now : ℚ) :
    (should_emit hash st t now).2.emitted = st.emitted ∧
    (should_emit hash st t now).2.statusEmitted = st.statusEmitted ∧
    (should_emit hash st t now).2.debounceMs = st.debounceMs ∧
    (should_emit hash st t now).2.maxChars = st.maxChars ∧
    (should_emit hash st t now).2.minChars = st.minChars ∧
    (should_emit hash st t now).2.preferFridaOnly = st.preferFridaOnly ∧
    (should_emit hash st t now).2.pid = st.pid := by
  by_cases hc : t = st.lastText ∧ (now - st.lastEmitTs) * 1000 < (st.debounceMs : ℚ)
  · simp [should_emit, hc]
  · rw [should_emit_unfold_fresh hash st t now hc]
    obtain ⟨hA, hB, hC, hD, hE, hF, hG, hH, hI⟩ :=
      seen_add_proj { st with lastText := t, lastEmitTs := now } (hash t)
    exact ⟨hD, hE, hC, hF, hG, hH, hI⟩

theorem should_emit_true_state (hash : Text → Int) (st : HookState) (t : Text) (now : ℚ)
    (ht : (should_emit hash st t now).1 = true) :
    (should_emit hash st t now).2.lastText = t ∧
    (should_emit hash st t now).2.lastEmitTs = now ∧
    hash t ∈ (should_emit hash st t now).2.seenSet := by
  by_cases hc : t = st.lastText ∧ (now - st.lastEmitTs) * 1000 < (st.debounceMs : ℚ)
  · simp [should_emit, hc] at ht
  · rw [should_emit_unfold_fresh hash st t now hc] at ht ⊢
    obtain ⟨hA, hB, -⟩ :=
      seen_add_proj { st with lastText := t, lastEmitTs := now } (hash t)
    exact ⟨hA, hB, seen_add_true_mem _ _ ht⟩

/-!  C1: dedup idempotence of `_should_emit`. -/

/-- C1: for every text `t` and timestamps `t1 < t2` with `t2 - t1` below
the debounce window, starting from a state in which `t` is neither the
last emission nor present in the dedup window, `_should_emit t` at `t1`
returns `True` and the immediately following `_should_emit t` at `t2`
returns `False`. -/
theorem dedup_idempotence (hash : Text → Int) (st : HookState) (t : Text) (t1 t2 : ℚ)
    (hlast : t ≠ st.lastText) (hseen : hash t ∉ st.seenSet)
    (hord : t1 < t2) (hwin : (t2 - t1) * 1000 < (st.debounceMs : ℚ)) :
    (should_emit hash st t t1).1 = true ∧
      (should_emit hash (should_emit hash st t t1).2 t t2).1 = false := by
  have hc1 : ¬(t = st.lastText ∧ (t1 - st.lastEmitTs) * 1000 < (st.debounceMs : ℚ)) := by
    intro h; exact hlast h.1
  have hfirst : (should_emit hash st t t1).1 = true := by
    rw [should_emit_unfold_fresh hash st t t1 hc1]
    exact seen_add_fresh _ _ hseen
  refine ⟨hfirst, ?_⟩
  obtain ⟨hlastT, hts, -⟩ := should_emit_true_state hash st t t1 hfirst
  have hdb : (should_emit hash st t t1).2.debounceMs = st.debounceMs :=
    (should_emit_proj hash st t t1).2.2.1
  have hc2 : t = (should_emit hash st t t1).2.lastText ∧
      (t2 - (should_emit hash st t t1).2.lastEmitTs) * 1000 <
        ((should_emit hash st t t1).2.debounceMs : ℚ) := by
    refine ⟨hlastT.symm, ?_⟩
    rw [hts, hdb]; exact hwin
  rw [should_emit_reject hash _ t t2 hc2]

/-- C1 witness: concrete instance with the constructor's default
debounce window (120 ms), text `"Hi"`, timestamps 0 s and 0.05 s. -/
theorem dedup_idempotence_witness :
    ("Hi".toList ≠ hookInitDefault.lastText ∧
      (fun t => (t.length : Int)) "Hi".toList ∉ hookInitDefault.seenSet ∧
      (0 : ℚ) < 1/20 ∧ ((1/20 : ℚ) - 0) * 1000 < (hookInitDefault.debounceMs : ℚ)) ∧
    (should_emit (fun t => (t.length : Int)) hookInitDefault "Hi".toList 0).1 = true ∧
      (should_emit (fun t => (t.length : Int))
        (should_emit (fun t => (t.length : Int)) hookInitDefault "Hi".toList 0).2
        "Hi".toList (1/20)).1 = false :=
  ⟨⟨by decide, by decide, by norm_num, by norm_num [hookInitDefault, hookInit]⟩,
    dedup_idempotence (fun t => (t.length : Int)) hookInitDefault "Hi".toList 0 (1/20)
      (by decide) (by decide) (by norm_num) (by norm_num [hookInitDefault, hookInit])⟩

/-! ### C2: DedupWindow bound and no-orphan invariant -/

/-- A sequence of `_should_emit` calls (text, timestamp), folded over the
thread state. -/
def runShould (hash : Text → Int) (st : HookState) (calls : List (Text × ℚ)) :
    HookState :=
  calls.foldl (fun s c => (should_emit hash s c.1 c.2).2) st

/-- The DedupWindow invariant: the membership set holds exactly the ring
buffer's elements (no orphan hash entries) and the ring never exceeds
capacity 300. -/
def SeenInv (st : HookState) : Prop :=
  st.seenSet = st.seen ∧ st.seen.length ≤ 300

/-- The last `n` elements of a list (what a `deque(maxlen=n)` retains). -/
def lastN (n : ℕ) (l : List Int) : List Int := l.drop (l.length - n)

theorem seen_add_fresh_eq (st : HookState) (h : Int) (hm : h ∉ st.seenSet)
    (hinv : SeenInv st) :
    (seen_add st h).2.seen = lastN 300 (st.seen ++ [h]) ∧
    (seen_add st h).2.seenSet = lastN 300 (st.seen ++ [h]) := by
  obtain ⟨hset, hlen⟩ := hinv
  unfold seen_add
  rw [if_neg hm]
  by_cases hl : st.seen.length ≥ 300
  · rw [if_pos hl]
    cases hseen : st.seen with
    | nil => rw [hseen] at hl; simp at hl
    | cons a r =>
      have hr300 : r.length = 299 := by
        rw [hseen] at hlen; simp at hlen
        rw [hseen] at hl; simp at hl
        omega
      have hdisc : setDiscard st.seenSet a = r := by
        rw [hset, hseen]; exact List.erase_cons_head a r
      have hnotr : h ∉ r := fun hx =>
        hm (by rw [hset, hseen]; exact List.mem_cons_of_mem a hx)
      have h1 : (r ++ [h]).length - 300 = 0 := by simp [hr300]
      have h2 : ((a :: r) ++ [h]).length - 300 = 1 := by simp [hr300]
      have h3 : lastN 300 ((a :: r) ++ [h]) = r ++ [h] := by
        unfold lastN
        rw [h2, List.cons_append, List.drop_one, List.tail_cons]
      dsimp only
      rw [hdisc]
      have h4 : setAdd r h = r ++ [h] := by simp [setAdd, hnotr]
      rw [h4, h1, List.drop_zero, h3]
      exact ⟨rfl, rfl⟩
  · rw [if_neg hl]
    have hadd : setAdd st.seenSet h = st.seen ++ [h] := by
      rw [hset] at hm ⊢; simp [setAdd, hm]
    have hle : (st.seen ++ [h]).length - 300 = 0 := by
      simp only [List.length_append, List.length_cons, List.length_nil]
      omega
    refine ⟨rfl, ?_⟩
    dsimp only
    rw [hadd]
    unfold lastN
    rw [hle, List.drop_zero]

theorem seen_add_inv (st : HookState) (h : Int) (hi : SeenInv st) :
    SeenInv (seen_add st h).2 := by
  by_cases hm : h ∈ st.seenSet
  · have : seen_add st h = (false, st) := by unfold seen_add; rw [if_pos hm]
    rw [this]; exact hi
  · obtain ⟨e1, e2⟩ := seen_add_fresh_eq st h hm hi
    constructor
    · rw [e1, e2]
    · rw [e1]
      unfold lastN
      rw [List.length_drop]
      omega

theorem should_emit_inv (hash : Text → Int) (st : HookState) (t : Text) (now : ℚ)
    (hi : SeenInv st) : SeenInv (should_emit hash st t now).2 := by
  by_cases hc : t = st.lastText ∧ (now - st.lastEmitTs) * 1000 < (st.debounceMs : ℚ)
  · rw [should_emit_reject hash st t now hc]; exact hi
  · rw [should_emit_unfold_fresh hash st t now hc]
    exact seen_add_inv _ (hash t) ⟨hi.1, hi.2⟩

theorem runShould_inv (hash : Text → Int) (st : HookState) (calls : List (Text × ℚ))
    (hi : SeenInv st) : SeenInv (runShould hash st calls) := by
  induction calls generalizing st with
  | nil => exact hi
  | cons c rest ih =>
    exact ih _ (should_emit_inv hash st c.1 c.2 hi)

theorem lastN_absorb (n : ℕ) (l l2 : List Int) :
    lastN n (lastN n l ++ l2) = lastN n (l ++ l2) := by
  by_cases h : n ≤ l.length
  · unfold lastN
    rw [← List.drop_append_of_le_length (by omega : l.length - n ≤ l.length)]
    rw [List.drop_drop]
    congr 1
    simp only [List.length_drop, List.length_append]
    omega
  · unfold lastN
    have h0 : l.length - n = 0 := by omega
    rw [h0, List.drop_zero]

theorem should_emit_fresh_state (hash : Text → Int) (st : HookState) (t : Text)
    (now : ℚ) (hinv : SeenInv st) (hlast : t ≠ st.lastText)
    (hm : hash t ∉ st.seenSet) :
    (should_emit hash st t now).2.seen = lastN 300 (st.seen ++ [hash t]) ∧
    (should_emit hash st t now).2.lastText = t ∧
    SeenInv (should_emit hash st t now).2 := by
  have hc : ¬(t = st.lastText ∧ (now - st.lastEmitTs) * 1000 < (st.debounceMs : ℚ)) :=
    fun hx => hlast hx.1
  have hfresh : (should_emit hash st t now).1 = true := by
    rw [should_emit_unfold_fresh hash st t now hc]
    exact seen_add_fresh _ _ hm
  refine ⟨?_, (should_emit_true_state hash st t now hfresh).1,
    should_emit_inv hash st t now hinv⟩
  rw [should_emit_unfold_fresh hash st t now hc]
  exact (seen_add_fresh_eq { st with lastText := t, lastEmitTs := now } (hash t) hm
    ⟨hinv.1, hinv.2⟩).1

/-- FIFO behaviour of the DedupWindow over a burst of calls whose
hashes are pairwise distinct and fresh: the ring ends up holding the
last 300 hashes of `existing ++ incoming`, in arrival order. -/
theorem runShould_fresh (hash : Text → Int) (calls : List (Text × ℚ)) :
    ∀ st : HookState, SeenInv st →
    (calls.map (fun c => hash c.1)).Nodup →
    (∀ c ∈ calls, hash c.1 ∉ st.seenSet) →
    (∀ c ∈ calls, c.1 ≠ st.lastText) →
    (runShould hash st calls).seen =
      lastN 300 (st.seen ++ calls.map (fun c => hash c.1)) := by
  induction calls with
  | nil =>
    intro st hinv _ _ _
    have h0 : st.seen.length - 300 = 0 := by have := hinv.2; omega
    simp [runShould, lastN, h0]
  | cons c rest ih =>
    intro st hinv hnodup hfresh hlast
    have hm := hfresh c (List.mem_cons_self c rest)
    have hlc := hlast c (List.mem_cons_self c rest)
    obtain ⟨hseen1, hlast1, hinv1⟩ :=
      should_emit_fresh_state hash st c.1 c.2 hinv hlc hm
    rw [List.map_cons] at hnodup
    have hnodup' : (rest.map (fun c => hash c.1)).Nodup := hnodup.of_cons
    have hhead : hash c.1 ∉ rest.map (fun c => hash c.1) :=
      (List.nodup_cons.mp hnodup).1
    set st1 := (should_emit hash st c.1 c.2).2 with hst1
    have hfresh' : ∀ c' ∈ rest, hash c'.1 ∉ st1.seenSet := by
      intro c' hc' hmem
      rw [hinv1.1, hseen1] at hmem
      have hmem2 : hash c'.1 ∈ st.seen ++ [hash c.1] := List.drop_subset _ _ hmem
      rcases List.mem_append.mp hmem2 with hA | hB
      · exact hfresh c' (List.mem_cons_of_mem c hc') (by rw [hinv.1]; exact hA)
      · have : hash c'.1 = hash c.1 := by simpa using hB
        exact hhead (this ▸ List.mem_map_of_mem (fun c => hash c.1) hc')
    have hlast' : ∀ c' ∈ rest, c'.1 ≠ st1.lastText := by
      intro c' hc' heq
      rw [hlast1] at heq
      exact hhead (heq ▸ List.mem_map_of_mem (fun c => hash c.1) hc')
    have hrun : runShould hash st (c :: rest) = runShould hash st1 rest := rfl
    rw [hrun, ih st1 hinv1 hnodup' hfresh' hlast', hseen1, lastN_absorb]
    simp

/-- 301 calls with pairwise distinct texts (`"a"`, `"aa"`, …, 301 copies
of `'a'`), on which the length hash is injective. -/
def calls301 : List (Text × ℚ) :=
  (List.range 301).map (fun i => (List.replicate (i + 1) 'a', (0 : ℚ)))

/-- The length hash used for the concrete 301-text scenario. -/
def lenHash : Text → Int := fun t => (t.length : Int)

/-- C2: over every sequence of `_should_emit` calls the ring buffer of
text hashes never exceeds 300 entries and the companion membership set
has exactly the ring buffer's size after every operation (no orphan
entries); and inserting 301 distinct texts leaves exactly the hashes of
the last 300 in FIFO order, the first-inserted hash having been evicted. -/
theorem dedup_window_bound :
    (∀ (hash : Text → Int) (calls : List (Text × ℚ)),
        (runShould hash hookInitDefault calls).seen.length ≤ 300 ∧
        (runShould hash hookInitDefault calls).seenSet.length =
          (runShould hash hookInitDefault calls).seen.length) ∧
    ((runShould lenHash hookInitDefault calls301).seen =
        (List.range' 2 300).map (fun i => (i : Int)) ∧
      (1 : Int) ∉ (runShould lenHash hookInitDefault calls301).seenSet) := by
  have hinit : SeenInv hookInitDefault := by
    constructor <;> simp [hookInitDefault, hookInit]
  constructor
  · intro hash calls
    have hinv : SeenInv (runShould hash hookInitDefault calls) :=
      runShould_inv hash hookInitDefault calls hinit
    exact ⟨hinv.2, by rw [hinv.1]⟩
  · have hseen : (runShould lenHash hookInitDefault calls301).seen =
        lastN 300 (hookInitDefault.seen ++ calls301.map (fun c => lenHash c.1)) :=
      runShould_fresh lenHash calls301 hookInitDefault hinit (by decide)
        (by decide) (by decide)
    have hset : (runShould lenHash hookInitDefault calls301).seenSet =
        (runShould lenHash hookInitDefault calls301).seen :=
      (runShould_inv lenHash hookInitDefault calls301 hinit).1
    constructor
    · rw [hseen]; decide
    · rw [hset, hseen]; decide

/-! ### Lemmas about truncation and the emission helpers -/

theorem truncTo_length (n : ℕ) (s : Text) : (truncTo n s).length ≤ n := by
  unfold truncTo
  by_cases h : s.length > n
  · rw [if_pos h]; simp [List.length_take]
  · rw [if_neg h]; omega

theorem truncTo_of_le (n : ℕ) (s : Text) (h : s.length ≤ n) : truncTo n s = s := by
  unfold truncTo
  rw [if_neg (by omega)]

theorem take_ne_nil (s : Text) (n : ℕ) (hs : s ≠ []) (hn : 1 ≤ n) :
    s.take n ≠ [] := by
  cases s with
  | nil => exact absurd rfl hs
  | cons a t =>
    cases n with
    | zero => omega
    | succ m => simp

theorem truncTo_ne_nil (n : ℕ) (s : Text) (hs : s ≠ []) (hn : 1 ≤ n) :
    truncTo n s ≠ [] := by
  unfold truncTo
  by_cases h : s.length > n
  · rw [if_pos h]; exact take_ne_nil s n hs hn
  · rw [if_neg h]; exact hs

theorem dropWhile_length_le (p : Char → Bool) (l : Text) :
    (l.dropWhile p).length ≤ l.length := by
  induction l with
  | nil => simp
  | cons a t ih =>
    by_cases h : p a
    · simp only [List.dropWhile_cons, h, if_true]
      exact Nat.le_succ_of_le ih
    · simp [List.dropWhile_cons, h]

theorem lstrip_self_head (a : Char) (t : Text) (hs : lstrip (a :: t) = a :: t) :
    isWs a = false := by
  by_contra hx
  have ha : isWs a = true := by simpa using hx
  simp only [lstrip, List.dropWhile_cons, ha, if_true] at hs
  have h1 : (t.dropWhile isWs).length ≤ t.length := dropWhile_length_le isWs t
  have h2 := congrArg List.length hs
  simp at h2
  omega

theorem lstrip_take (s : Text) (n : ℕ) (hn : 1 ≤ n) (hs : lstrip s = s) :
    lstrip (s.take n) = s.take n := by
  cases s with
  | nil => simp [lstrip]
  | cons a t =>
    have ha : isWs a = false := lstrip_self_head a t hs
    cases n with
    | zero => omega
    | succ m => simp [List.take_succ_cons, lstrip, List.dropWhile_cons, ha]

theorem lstrip_truncTo (n : ℕ) (s : Text) (hn : 1 ≤ n) (hs : lstrip s = s) :
    lstrip (truncTo n s) = truncTo n s := by
  unfold truncTo
  by_cases h : s.length > n
  · rw [if_pos h]; exact lstrip_take s n hn hs
  · rw [if_neg h]; exact hs

theorem seen_add_mem_reject (st : HookState) (h : Int) (hm : h ∈ st.seenSet) :
    seen_add st h = (false, st) := by
  unfold seen_add
  rw [if_pos hm]

theorem should_emit_dup (hash : Text → Int) (st : HookState) (t : Text) (now : ℚ)
    (hmem : hash t ∈ st.seenSet) :
    (should_emit hash st t now).1 = false ∧
    (should_emit hash st t now).2.emitted = st.emitted := by
  refine ⟨?_, (should_emit_proj hash st t now).1⟩
  by_cases hc : t = st.lastText ∧ (now - st.lastEmitTs) * 1000 < (st.debounceMs : ℚ)
  · rw [should_emit_reject hash st t now hc]
  · rw [should_emit_unfold_fresh hash st t now hc]
    have hm2 : hash t ∈ ({ st with lastText := t, lastEmitTs := now } : HookState).seenSet :=
      hmem
    rw [seen_add_mem_reject _ _ hm2]

theorem emit_text_eq (hash : Text → Int) (st : HookState) (t : Text) (now : ℚ)
    (h0 : ¬(pstrip t = [])) :
    emit_text hash st t now =
      (match should_emit hash st (truncTo st.maxChars (pstrip t)) now with
       | (true, st1) =>
         { st1 with emitted := st1.emitted ++ [truncTo st.maxChars (pstrip t)] }
       | (false, st1) => st1) := by
  unfold emit_text
  rw [if_neg h0]

theorem emit_text_dup_emitted (hash : Text → Int) (st : HookState) (t : Text) (now : ℚ)
    (hstrip : pstrip t = t) (hlen : t.length ≤ st.maxChars)
    (hmem : hash t ∈ st.seenSet) :
    (emit_text hash st t now).emitted = st.emitted := by
  by_cases h0 : pstrip t = []
  · unfold emit_text; rw [if_pos h0]
  · have htr : truncTo st.maxChars (pstrip t) = t := by
      rw [hstrip]; exact truncTo_of_le _ _ hlen
    rw [emit_text_eq hash st t now h0, htr]
    rcases hse : should_emit hash st t now with ⟨b, st1⟩
    obtain ⟨hb, hem⟩ := should_emit_dup hash st t now hmem
    rw [hse] at hb hem
    simp only at hb
    subst hb
    simpa using hem

/-! ### C6: the system-event channel's forwarding path -/

/-- C6: the code cannot forward a qualifying win-event text whose
stripped, truncated form has no trailing whitespace (in particular, any
text of length at most `max_chars`): `_win_event_proc` consults
`_should_emit` and, on acceptance, calls `_emit_text`, which consults
`_should_emit` a second time on the same payload; the second check
always rejects, because the payload is now the last emission and its
hash was just inserted into the DedupWindow.  The emitted stream is
unchanged by the whole callback. -/
theorem win_event_never_forwards (hash : Text → Int) (st : HookState) (raw : Text)
    (now1 now2 : ℚ)
    (hclean : pstrip (truncTo st.maxChars (pstrip raw)) =
      truncTo st.maxChars (pstrip raw)) :
    (win_event_handle hash st raw now1 now2).emitted = st.emitted := by
  unfold win_event_handle
  by_cases h0 : pstrip raw = []
  · rw [if_pos h0]
  · rw [if_neg h0]
    by_cases h1 : (pstrip raw).length < st.minChars
    · rw [if_pos h1]
    · rw [if_neg h1]
      rcases hse : should_emit hash st (truncTo st.maxChars (pstrip raw)) now1
        with ⟨b, st1⟩
      have hem1 : st1.emitted = st.emitted := by
        have h := (should_emit_proj hash st (truncTo st.maxChars (pstrip raw)) now1).1
        rw [hse] at h; exact h
      dsimp only
      rw [hse]
      cases b
      · exact hem1
      · have htrue : (should_emit hash st (truncTo st.maxChars (pstrip raw)) now1).1
            = true := by rw [hse]
        have hmem : hash (truncTo st.maxChars (pstrip raw)) ∈ st1.seenSet := by
          have h := (should_emit_true_state hash st
            (truncTo st.maxChars (pstrip raw)) now1 htrue).2.2
          rw [hse] at h; exact h
        have hmax1 : st1.maxChars = st.maxChars := by
          have h := (should_emit_proj hash st
            (truncTo st.maxChars (pstrip raw)) now1).2.2.2.1
          rw [hse] at h; exact h
        dsimp only
        unfold emit_text_with_source
        by_cases h2 : pstrip (truncTo st.maxChars (pstrip raw)) = []
        · rw [if_pos h2]; exact hem1
        · rw [if_neg h2]
          by_cases h3 : st1.preferFridaOnly = true ∧
              ("win_event".toList = "uia".toList ∨ "win_event".toList = "win_event".toList)
          · rw [if_pos h3]; exact hem1
          · rw [if_neg h3]
            rw [hclean]
            have hres := emit_text_dup_emitted hash st1
              (truncTo st.maxChars (pstrip raw)) now2 hclean
              (by rw [hmax1]; exact truncTo_length _ _) hmem
            rw [hres]; exact hem1

/-- C6 witness for the failing input of the claim: default parameters,
fresh state, control text `"Hello"`, and win-event timestamps a full
second apart (so neither the debounce window nor any prior dedup entry
could explain the suppression): no text event is emitted. -/
theorem win_event_never_forwards_witness :
    pstrip (truncTo hookInitDefault.maxChars (pstrip "Hello".toList)) =
      truncTo hookInitDefault.maxChars (pstrip "Hello".toList) ∧
    (win_event_handle lenHash hookInitDefault "Hello".toList 1000 1001).emitted =
      hookInitDefault.emitted :=
  ⟨by decide,
    win_event_never_forwards lenHash hookInitDefault "Hello".toList 1000 1001 (by decide)⟩

/-! ### C10: shape of emitted payloads -/

/-- C10 counterexample: with `max_chars = 5` the candidate `"aaaa b"` is
stripped (a no-op here) and then truncated to `"aaaa "`, which is
emitted even though it does not equal its own whitespace-stripped form
(truncation exposed a trailing space). -/
theorem emitted_text_strip_counterexample :
    (emit_text lenHash (hookInit 0 1 5 120 false) "aaaa b".toList 0).emitted =
      ["aaaa ".toList] ∧
    pstrip "aaaa ".toList ≠ "aaaa ".toList := by
  constructor
  · decide
  · decide

/-- C10 (amended): every payload emitted by `_emit_text` is non-empty,
has length at most `max_chars`, has no leading whitespace, and is
exactly the whitespace-stripped input truncated to `max_chars` (which
may expose trailing whitespace); when the stripped input already fits
within `max_chars`, the payload does equal its own stripped form.  The
constructor clamps `min_chars` to at least 1 and `max_chars` to at
least `min_chars`. -/
theorem emitted_text_shape (hash : Text → Int) (st : HookState) (t : Text) (now : ℚ)
    (hmax : 1 ≤ st.maxChars) :
    ((emit_text hash st t now).emitted = st.emitted ∨
      ((emit_text hash st t now).emitted =
          st.emitted ++ [truncTo st.maxChars (pstrip t)] ∧
        truncTo st.maxChars (pstrip t) ≠ [] ∧
        (truncTo st.maxChars (pstrip t)).length ≤ st.maxChars ∧
        lstrip (truncTo st.maxChars (pstrip t)) = truncTo st.maxChars (pstrip t) ∧
        ((pstrip t).length ≤ st.maxChars →
          pstrip (truncTo st.maxChars (pstrip t)) = truncTo st.maxChars (pstrip t)))) ∧
    (∀ (pid mn mx db : Int) (pf : Bool),
      1 ≤ (hookInit pid mn mx db pf).minChars ∧
        (hookInit pid mn mx db pf).minChars ≤ (hookInit pid mn mx db pf).maxChars) := by
  constructor
  · by_cases h0 : pstrip t = []
    · left; unfold emit_text; rw [if_pos h0]
    · rw [emit_text_eq hash st t now h0]
      rcases hse : should_emit hash st (truncTo st.maxChars (pstrip t)) now with ⟨b, st1⟩
      have hem := (should_emit_proj hash st (truncTo st.maxChars (pstrip t)) now).1
      rw [hse] at hem
      cases b
      · left; simpa using hem
      · right
        refine ⟨by simpa using hem, truncTo_ne_nil _ _ h0 hmax, truncTo_length _ _,
          lstrip_truncTo _ _ hmax (lstrip_pstrip t), ?_⟩
        intro hfit
        rw [truncTo_of_le _ _ hfit]
        exact pstrip_idem t
  · intro pid mn mx db pf
    constructor
    · simp [hookInit]
    · simp [hookInit]

/-- C10 witness: concrete emission with default parameters showing the
amended shape is realised (input `" Hi "` emits `"Hi"`). -/
theorem emitted_text_shape_witness :
    1 ≤ hookInitDefault.maxChars ∧
    ((emit_text lenHash hookInitDefault " Hi ".toList 0).emitted =
        hookInitDefault.emitted ∨
      ((emit_text lenHash hookInitDefault " Hi ".toList 0).emitted =
          hookInitDefault.emitted ++
            [truncTo hookInitDefault.maxChars (pstrip " Hi ".toList)] ∧
        truncTo hookInitDefault.maxChars (pstrip " Hi ".toList) ≠ [] ∧
        (truncTo hookInitDefault.maxChars (pstrip " Hi ".toList)).length ≤
          hookInitDefault.maxChars ∧
        lstrip (truncTo hookInitDefault.maxChars (pstrip " Hi ".toList)) =
          truncTo hookInitDefault.maxChars (pstrip " Hi ".toList) ∧
        ((pstrip " Hi ".toList).length ≤ hookInitDefault.maxChars →
          pstrip (truncTo hookInitDefault.maxChars (pstrip " Hi ".toList)) =
            truncTo hookInitDefault.maxChars (pstrip " Hi ".toList)))) :=
  ⟨by decide,
    (emitted_text_shape lenHash hookInitDefault " Hi ".toList 0 (by decide)).1⟩

/-! ### C7: the socket ingest channel's line protocol
(`_parse_hook_line`, lines 262-303, and the per-line handling inside
`_server_loop`, lines 362-382) -/

/-- The fields `_parse_hook_line` extracts from a parsed JSON object:
`data.get("text")`, `data.get("status")`, `data.get("label")` coerced to
strings, and `data.get("pid")` coerced to an optional int. -/
structure JsonFields where
  text : Text
  status : Text
  label : Text
  pid : Option Int

/-- Python `head.split(sep, 1)[-1]`: the part after the first `sep`, or
the whole string when `sep` is absent. -/
def afterFirst (c : Char) (s : Text) : Text :=
  if c ∈ s then (s.dropWhile (· ≠ c)).drop 1 else s

/-- Python `payload.split("|", 1)` (the separator is known present). -/
def splitFirst (c : Char) (s : Text) : Text × Text :=
  (s.takeWhile (· ≠ c), (s.dropWhile (· ≠ c)).drop 1)

/-- Decimal digits helper for `int(...)`. -/
def digitsVal (l : Text) : Option ℕ :=
  l.foldl
    (fun acc c =>
      acc.bind (fun n => if c.isDigit then some (n * 10 + (c.toNat - 48)) else none))
    (some 0)

/-- Python `int(str)` on the strings occurring here: optional sign and
decimal digits after stripping; `None` models the `ValueError` branch. -/
def pyParseInt (s : Text) : Option Int :=
  match pstrip s with
  | [] => none
  | '-' :: rest => if rest = [] then none else (digitsVal rest).map (fun n => -(n : Int))
  | '+' :: rest => if rest = [] then none else (digitsVal rest).map (fun n => (n : Int))
  | t => (digitsVal t).map (fun n => (n : Int))

/-- The two `pid=<n>|` / `pid:<n>|` fallbacks and the raw-text default
of `_parse_hook_line` (lines 287-303). -/
def parseHookTail (payload : Text) : Option Int × Text × Text :=
  if jsStartsWith (lowerText payload) "pid=".toList ∧ '|' ∈ payload then
    let hb := splitFirst '|' payload
    (pyParseInt (pstrip (afterFirst '=' hb.1)), pstrip hb.2, [])
  else if jsStartsWith (lowerText payload) "pid:".toList ∧ '|' ∈ payload then
    let hb := splitFirst '|' payload
    (pyParseInt (pstrip (afterFirst ':' hb.1)), pstrip hb.2, [])
  else (none, payload, [])

/-- `HookTextThread._parse_hook_line` (lines 262-303).  `jsonParse`
abstracts `json.loads` plus field extraction; `none` covers both
malformed JSON and non-object results. -/
def parse_hook_line (jsonParse : Text → Option JsonFields) (line : Text) :
    Option Int × Text × Text :=
  let payload := pstrip line
  if payload = [] then (none, [], [])
  else if payload.head? = some '\x7b' ∧ payload.getLast? = some '\x7d' then
    match jsonParse payload with
    | some d => (d.pid, pstrip d.text, pstrip d.status)
    | none => parseHookTail payload
  else parseHookTail payload

/-- The per-line body of `_server_loop` (lines 362-382): strip the
decoded line, skip empties, parse, drop lines whose pid mismatches the
session's target, forward a non-empty status on the status signal, then
hand the text to `_emit_text_with_source(text, "socket")`. -/
def server_handle_line (hash : Text → Int) (jsonParse : Text → Option JsonFields)
    (st : HookState) (rawLine : Text) (now : ℚ) : HookState :=
  let s := pstrip rawLine
  if s = [] then st
  else
    let r := parse_hook_line jsonParse s
    match r.1 with
    | some p =>
      if p ≠ st.pid then st
      else
        let st1 := if r.2.2 ≠ [] then
          { st with statusEmitted := st.statusEmitted ++ [r.2.2] } else st
        emit_text_with_source hash st1 r.2.1 "socket".toList now
    | none =>
      let st1 := if r.2.2 ≠ [] then
        { st with statusEmitted := st.statusEmitted ++ [r.2.2] } else st
      emit_text_with_source hash st1 r.2.1 "socket".toList now

/-- C7: a received line that is not a parseable JSON object (including
malformed JSON between braces) and does not match the `pid=<n>|` or
`pid:<n>|` forms is treated as raw text: the parser returns the whole
stripped line as the text with no pid and no status, and the server loop
forwards it as a `text_received` emission when it passes the dedup
pipeline. -/
theorem protocol_tolerance (hash : Text → Int) (jsonParse : Text → Option JsonFields)
    (st : HookState) (line : Text) (now : ℚ)
    (hp : pstrip line ≠ [])
    (hjson : jsonParse (pstrip line) = none)
    (hnot1 : ¬(jsStartsWith (lowerText (pstrip line)) "pid=".toList = true ∧
      '|' ∈ pstrip line))
    (hnot2 : ¬(jsStartsWith (lowerText (pstrip line)) "pid:".toList = true ∧
      '|' ∈ pstrip line))
    (hlast : pstrip line ≠ st.lastText)
    (hseen : hash (pstrip line) ∉ st.seenSet)
    (hlen : (pstrip line).length ≤ st.maxChars) :
    parse_hook_line jsonParse (pstrip line) = (none, pstrip line, []) ∧
    (server_handle_line hash jsonParse st line now).emitted =
      st.emitted ++ [pstrip line] ∧
    (server_handle_line hash jsonParse st line now).statusEmitted =
      st.statusEmitted := by
  have hidem : pstrip (pstrip line) = pstrip line := pstrip_idem line
  have htail : parseHookTail (pstrip line) = (none, pstrip line, []) := by
    unfold parseHookTail
    rw [if_neg hnot1, if_neg hnot2]
  have hparse : parse_hook_line jsonParse (pstrip line) = (none, pstrip line, []) := by
    unfold parse_hook_line
    rw [hidem]
    rw [if_neg hp]
    by_cases hb : (pstrip line).head? = some '\x7b' ∧ (pstrip line).getLast? = some '\x7d'
    · rw [if_pos hb, hjson]
      exact htail
    · rw [if_neg hb]
      exact htail
  refine ⟨hparse, ?_⟩
  unfold server_handle_line
  rw [if_neg hp, hparse]
  dsimp only
  rw [if_neg (by simp)]
  unfold emit_text_with_source
  rw [hidem]
  rw [if_neg hp]
  rw [if_neg (by simp : ¬(st.preferFridaOnly = true ∧
    ("socket".toList = "uia".toList ∨ "socket".toList = "win_event".toList)))]
  rw [emit_text_eq hash st (pstrip line) now (by rw [hidem]; exact hp)]
  rw [hidem, truncTo_of_le _ _ hlen]
  rcases hse : should_emit hash st (pstrip line) now with ⟨b, st1⟩
  have hb : b = true := by
    have h1 : ¬(pstrip line = st.lastText ∧
        (now - st.lastEmitTs) * 1000 < (st.debounceMs : ℚ)) := fun hx => hlast hx.1
    have h2 : (should_emit hash st (pstrip line) now).1 = true := by
      rw [should_emit_unfold_fresh hash st (pstrip line) now h1]
      exact seen_add_fresh _ _ hseen
    rw [hse] at h2; exact h2
  subst hb
  have hem : st1.emitted = st.emitted := by
    have h := (should_emit_proj hash st (pstrip line) now).1
    rw [hse] at h; exact h
  have hst : st1.statusEmitted = st.statusEmitted := by
    have h := (should_emit_proj hash st (pstrip line) now).2.1
    rw [hse] at h; exact h
  constructor
  · dsimp only
    rw [hem]
  · dsimp only
    exact hst

/-- C7 witness: the spec's scenario — the raw line `"not json at all"`
over a fresh default session becomes a text event with exactly that
text and no status. -/
theorem protocol_tolerance_witness :
    (pstrip "not json at all".toList ≠ [] ∧
      pstrip "not json at all".toList ≠ hookInitDefault.lastText ∧
      lenHash (pstrip "not json at all".toList) ∉ hookInitDefault.seenSet ∧
      (pstrip "not json at all".toList).length ≤ hookInitDefault.maxChars) ∧
    parse_hook_line (fun _ => none) (pstrip "not json at all".toList) =
      (none, pstrip "not json at all".toList, []) ∧
    (server_handle_line lenHash (fun _ => none) hookInitDefault
        "not json at all".toList 0).emitted =
      hookInitDefault.emitted ++ [pstrip "not json at all".toList] ∧
    (server_handle_line lenHash (fun _ => none) hookInitDefault
        "not json at all".toList 0).statusEmitted =
      hookInitDefault.statusEmitted :=
  ⟨⟨by decide, by decide, by decide, by decide⟩,
    protocol_tolerance lenHash (fun _ => none) hookInitDefault
      "not json at all".toList 0 (by decide) rfl (by decide) (by decide)
      (by decide) (by decide) (by decide)⟩

/-! ### The injected agent script (the `sendText` stitcher,
src/core/hook_client.py lines 642-958, and the GetGlyphOutline glyph
path, lines 1330-1373)

Times are milliseconds (`Date.now()`), modelled as rationals.  The
`setTimeout` flush timers are modelled as recorded deadlines
(`growTimer`, `uCharTimer`); firing a timer is an explicit event
(`fireGrowTimer` / `fireUCharTimer`) replaying the callback body. -/

def isAsciiUpperCh (c : Char) : Bool := 65 ≤ c.toNat && c.toNat ≤ 90

def isAsciiLowerCh (c : Char) : Bool := 97 ≤ c.toNat && c.toNat ≤ 122

def isAsciiAlphaCh (c : Char) : Bool := isAsciiUpperCh c || isAsciiLowerCh c

def isAsciiDigitCh (c : Char) : Bool := 48 ≤ c.toNat && c.toNat ≤ 57

def isHexDigitCh (c : Char) : Bool :=
  isAsciiDigitCh c || (65 ≤ c.toNat && c.toNat ≤ 70) || (97 ≤ c.toNat && c.toNat ≤ 102)

/-- The CJK range `0x4E00-0x9FFF` tested in `sendTextInternal`. -/
def isCjkCh (c : Char) : Bool := 0x4E00 ≤ c.toNat && c.toNat ≤ 0x9FFF

/-- The range of `/[　-鿿]/` in the long-garbage filter. -/
def isWideCh (c : Char) : Bool := 0x3000 ≤ c.toNat && c.toNat ≤ 0x9FFF

/-- `/^[A-Za-z]$/.test(s)`. -/
def singleAlpha : Text → Bool
  | [c] => isAsciiAlphaCh c
  | _ => false

/-- `/^[a-zA-Z0-9]$/.test(s)`. -/
def singleAlnum : Text → Bool
  | [c] => isAsciiAlphaCh c || isAsciiDigitCh c
  | _ => false

/-- `/^[a-z]/.test(s)`. -/
def headLower (t : Text) : Bool :=
  match t.head? with
  | some c => isAsciiLowerCh c
  | none => false

/-- `/^[0-9A-Fa-f]{8,}$/.test(s)`. -/
def hexDump (t : Text) : Bool := 8 ≤ t.length && t.all isHexDigitCh

/-- `/^[a-z][a-z0-9_]*$/.test(s)` (typical variable names). -/
def lowerIdent : Text → Bool
  | [] => false
  | a :: rest =>
    isAsciiLowerCh a && rest.all (fun c => isAsciiLowerCh c || isAsciiDigitCh c || c == '_')

/-- `/^[A-Z][A-Z0-9_]*$/.test(s)` (ALL-CAPS constants). -/
def allCapsConst : Text → Bool
  | [] => false
  | a :: rest =>
    isAsciiUpperCh a && rest.all (fun c => isAsciiUpperCh c || isAsciiDigitCh c || c == '_')

/-- `/\(&[A-Z0-9]\)(\.\.\.)?$/.test(s)` (Windows menu items). -/
def menuSuffix (t : Text) : Bool :=
  match t.reverse with
  | ')' :: c :: '&' :: '(' :: _ => isAsciiUpperCh c || isAsciiDigitCh c
  | '.' :: '.' :: '.' :: ')' :: c :: '&' :: '(' :: _ => isAsciiUpperCh c || isAsciiDigitCh c
  | _ => false

/-- JS `s.indexOf(c)` for a single character. -/
def jsIndexOfChar (s : Text) (c : Char) : Int :=
  match s.findIdx? (· == c) with
  | some n => (n : Int)
  | none => -1

/-- Position of the first occurrence of `sub` in `s`, if any. -/
def subPos (sub : Text) : Text → Option ℕ
  | [] => if sub.isPrefixOf [] then some 0 else none
  | a :: rest =>
    if sub.isPrefixOf (a :: rest) then some 0 else (subPos sub rest).map (· + 1)

/-- JS `s.indexOf(sub)` for a substring. -/
def jsIndexOfSub (s sub : Text) : Int :=
  match subPos sub s with
  | some n => (n : Int)
  | none => -1

/-- JS `a || b` on strings. -/
def jsOr (a b : Text) : Text := if a = [] then b else a

/-- JS `rest.every(ch => ch === a)` as used by the all-same checks. -/
def pairsDouble : Text → Bool
  | a :: b :: rest => a == b && pairsDouble rest
  | _ => true

/-- The `fixed` accumulation of the doubling collapse: one copy per
even-indexed pair (`for (i = 0; i < s.length; i += 2) fixed += s[i]`). -/
def collapsePairs : Text → Text
  | [] => []
  | [a] => [a]
  | a :: _ :: rest => a :: collapsePairs rest

/-- The `BAD_STRINGS` exact-match blacklist (lines 642-673). -/
def BAD_STRINGS : List Text :=
  ([ "voice", "movie", "overlay", "transient", "None", "master",
     "splash_message", "transform", "image_placement", "default",
     "bytecode", "none", "unicode", "tex", "suppress_overlay",
     "music", "from", "to", "loop", "True", "python", "label",
     "screens", "main_menu", "jump", "if", "call", "audio",
     "t1", "return", "pass", "False", "gui", "vbox", "hbox",
     "null", "solid", "frame", "window", "text", "button", "bar",
     "viewport", "imagemap", "timer", "key", "input", "grid",
     "style_prefix", "navigation_xpos", "navigation_spacing",
     "narrator", "say", "who", "what", "id", "style", "self",
     "child", "replaces", "scope", "function", "focus", "xalign",
     "yalign", "spacing", "layout", "clicked", "text_style",
     "substitute", "text_", "button_text", "hovered", "unhovered",
     "action", "say_window", "title", "main_menu_background",
     "subpixel", "ease_cubic", "activate_sound", "game_menu_background",
     "scroll", "context", "vpfunc", "scrollbars", "vscrollbar",
     "side_", "positions", "child_size", "offsets", "xadjustment",
     "yadjustment", "set_adjustments", "mousewheel", "draggable",
     "edgescroll", "xinitial", "yinitial", "role", "time_policy",
     "keymap", "alternate", "selected", "sensitive", "keysym",
     "alternate_keysym", "page_name_value", "length", "allow",
     "exclude", "prefix", "suffix", "ground", "idle", "hover",
     "insensitive", "selected_idle", "selected_hover", "st", "at",
     "range", "value", "changed", "adjustment", "step", "page",
     "xpos", "ypos", "xanchor", "yanchor", "xoffset", "yoffset",
     "xmaximum", "ymaximum", "xminimum", "yminimum", "xfill", "yfill",
     "top_padding", "bottom_padding", "left_padding", "right_padding",
     "top_margin", "bottom_margin", "left_margin", "right_margin",
     "size_group", "events", "trans", "show", "hide", "scene",
     "config", "store", "persistent", "name", "screen" ] :
      List String).map String.toList

/-- The `BAD_SUBSTRINGS` UI-noise blacklist (lines 918-923). -/
def BAD_SUBSTRINGS : List Text :=
  ([ "Test 1:", "Test 2:", "Test 3:", "Test 4:", "Test 5:",
     "PID:", "Run ScreenTranslator", "Select this window",
     "Click buttons below", "Ready...", "GetTextExtentPoint32W",
     "Running Typewriter", "Typewriter Done" ] : List String).map String.toList

/-- JS `t.indexOf(sub) !== -1`. -/
def hasSub (s sub : Text) : Bool := (subPos sub s).isSome

/-- The agent script's module-level state (lines 675-695) plus the
recorded `send({text, label})` control-plane messages. -/
structure AgentState where
  startTime : ℤ
  lastText : Text
  lastTime : ℤ
  globalMsgCount : ℕ
  uCharBuf : Text
  uCharTimer : Option ℤ
  uCharLabel : Text
  growBuf : Text
  growTimer : Option ℤ
  growLabel : Text
  growSent : Bool
  sent : List (Text × Text)
deriving DecidableEq

/-- Initial agent state at script load (`_startTime = Date.now()`). -/
def agentInit (startTime : ℤ) : AgentState :=
  { startTime := startTime, lastText := [], lastTime := 0, globalMsgCount := 0
    uCharBuf := [], uCharTimer := none, uCharLabel := []
    growBuf := [], growTimer := none, growLabel := [], growSent := false
    sent := [] }

/-- `normalizePrefixBuf` (lines 697-719). -/
def normalizePrefixBuf (s : Text) : Text :=
  match s with
  | [] => []
  | a :: rest =>
    if rest.all (· == a) then [a]
    else if 4 ≤ (a :: rest).length ∧ (a :: rest).length % 2 = 0 ∧ pairsDouble (a :: rest)
    then collapsePairs (a :: rest)
    else a :: rest

/-- `cleanDoubles` from the GetGlyphOutline hook (lines 1337-1361): if
at least 40% of adjacent positions repeat the previous character
(`dupCount / s.length >= 0.40`, an exact comparison at the rationals in
range here), collapse every adjacent duplicate pair to one copy. -/
def dupCount : Text → ℕ
  | a :: b :: rest => (if a = b then 1 else 0) + dupCount (b :: rest)
  | _ => 0

def collapseAdj : Text → Text
  | a :: b :: rest => if a = b then a :: collapseAdj rest else a :: collapseAdj (b :: rest)
  | l => l

def cleanDoubles (s : Text) : Text :=
  if s.length < 2 then s
  else if 5 * dupCount s ≥ 2 * s.length then collapseAdj s
  else s

/-- `sendTextInternal` (lines 874-957): rapid-repeat dedup, collapse of
fully doubled text (length ≥ 4, even, every even-indexed pair equal),
update of `_lastText/_lastTime`, then the content filters guarding the
final `send({text, label})`. -/
def sendTextInternal (st : AgentState) (t0 : Text) (label : Text) (now : ℤ) :
    AgentState :=
  if t0 = st.lastText ∧ now - st.lastTime < 200 then { st with lastTime := now }
  else
    let dbl : Bool := (4 ≤ t0.length && t0.length % 2 == 0) && pairsDouble t0
    let t := if dbl then collapsePairs t0 else t0
    if dbl ∧ t = st.lastText ∧ now - st.lastTime < 200 then st
    else
      let st := { st with lastText := t, lastTime := now }
      if t.length < 2 ∧ ¬(t.any isCjkCh) = true ∧ ¬(singleAlnum t) = true then st
      else if t ∈ BAD_STRINGS then st
      else if BAD_SUBSTRINGS.any (fun b => hasSub t b) then st
      else if t.getLast? = some '$' then st
      else if t.head? = some '_' then st
      else if t.head? = some '%' then st
      else if t.head? = some '<' ∧ t.getLast? = some '>' then st
      else if t.head? = some '[' ∧ t.getLast? = some ']' then st
      else if t = "GetTextExtentPoint32W".toList ∨ t = "GetTextExtentExPointW".toList ∨
        t = "TextOutW".toList ∨ t = "ExtTextOutW".toList then st
      else if t.head? = some '\x7b' ∧ t.getLast? = some '\x7d' then st
      else if lowerIdent t then st
      else if allCapsConst t ∧ jsIndexOfChar t '_' > 0 then st
      else if (jsIndexOfChar t '/' ≥ 0 ∨ jsIndexOfChar t '\\' ≥ 0) ∧
        (jsIndexOfSub t ".rpy".toList > 0 ∨ jsIndexOfSub t ".png".toList > 0 ∨
          jsIndexOfSub t ".jpg".toList > 0 ∨ jsIndexOfSub t ".ogg".toList > 0) then st
      else if menuSuffix t then st
      else
        { st with globalMsgCount := st.globalMsgCount + 1
                  sent := st.sent ++ [(t, jsOr label "unknown".toList)] }

/-- `sendText` (lines 721-872): startup delay, split-capital rejoin,
garbage filters, growing-text buffer, single-character buffer, and
new-sentence flush, in the source's order. -/
def sendText (st : AgentState) (tIn : Text) (label : Text) (now : ℤ) : AgentState :=
  if now - st.startTime < 1000 then st
  else if tIn.length = 0 then st
  else
    let t2 :=
      if st.lastText ≠ [] ∧ st.lastText.length = 1 ∧ now - st.lastTime < 1200 ∧
          2 ≤ tIn.length ∧ singleAlpha st.lastText ∧ headLower tIn ∧
          ¬(jsStartsWith tIn st.lastText) = true ∧
          tIn.head? ≠ some ' ' ∧ tIn.head? ≠ some '　'
      then st.lastText ++ tIn else tIn
    if t2.length = 1 ∧ st.growBuf ≠ [] ∧ st.growSent = false ∧
        singleAlpha t2 ∧ headLower st.growBuf ∧ ¬(jsStartsWith st.growBuf t2) = true ∧
        st.growBuf.head? ≠ some ' ' ∧ st.growBuf.head? ≠ some '　' then
      { st with growBuf := t2 ++ st.growBuf, growLabel := jsOr label st.growLabel
                growTimer := some (now + 300) }
    else
      let t3 :=
        match st.lastText with
        | c :: restL =>
          if 2 ≤ restL.length + 1 ∧ restL.length + 1 ≤ 4 ∧ 3 ≤ t2.length ∧
              restL.all (· == c) ∧ isAsciiUpperCh c ∧ headLower t2 ∧
              t2.head? ≠ some c
          then c :: t2 else t2
        | [] => t2
      let trimmed := pstrip t3
      if jsStartsWith trimmed "0x".toList ∨ jsStartsWith trimmed "0X".toList then st
      else if jsIndexOfSub trimmed "\\u".toList ≠ -1 then st
      else if hexDump trimmed then st
      else if 50 < trimmed.length ∧ jsIndexOfChar trimmed ' ' = -1 ∧
        ¬(trimmed.any isWideCh) = true then st
      else if st.growBuf ≠ [] ∧ t3 = st.growBuf then st
      else if st.growBuf ≠ [] ∧ jsStartsWith t3 st.growBuf ∧
          st.growBuf.length < t3.length ∧ t3.length - st.growBuf.length < 50 then
        { st with growBuf := t3, growLabel := jsOr label st.growLabel
                  growSent := false, growTimer := some (now + 300) }
      else if t3.length = 1 then
        if trimmed = [] ∧ t3 ≠ [' '] ∧ t3 ≠ ['　'] then st
        else
          { st with uCharBuf := st.uCharBuf ++ t3
                    uCharLabel := jsOr label "Typewriter".toList
                    uCharTimer := some (now + 300) }
      else
        let stA := if st.growBuf ≠ [] ∧ st.growSent = false
          then sendTextInternal st st.growBuf st.growLabel now else st
        let uNorm := if stA.uCharBuf ≠ [] then normalizePrefixBuf stA.uCharBuf else []
        if uNorm ≠ [] ∧ jsStartsWith t3 uNorm then
          { stA with uCharBuf := [], uCharTimer := none
                     growBuf := t3, growLabel := label, growSent := false
                     growTimer := some (now + 300) }
        else if uNorm ≠ [] ∧ uNorm.length ≤ 6 ∧ 1 < t3.length ∧
            t3.head? ≠ some ' ' ∧ t3.head? ≠ some '　' ∧
            uNorm.getLast? ≠ some ' ' ∧ uNorm.getLast? ≠ some '　' then
          { stA with uCharBuf := [], uCharTimer := none
                     growBuf := uNorm ++ t3
                     growLabel := jsOr label (jsOr stA.uCharLabel stA.growLabel)
                     growSent := false, growTimer := some (now + 300) }
        else
          let stC := if uNorm ≠ []
            then { (sendTextInternal stA uNorm stA.uCharLabel now) with
                    uCharBuf := [], uCharTimer := none }
            else stA
          { stC with growBuf := t3, growLabel := label, growSent := false
                     growTimer := some (now + 300) }

/-- The grow-buffer flush timer callback (`setTimeout(..., 300)` bodies
at lines 744-749, 793-799, 844-849, 864-869). -/
def fireGrowTimer (st : AgentState) (now : ℤ) : AgentState :=
  if st.growBuf ≠ [] ∧ st.growSent = false then
    { (sendTextInternal st st.growBuf st.growLabel now) with
        growSent := true, growTimer := none }
  else { st with growTimer := none }

/-- The single-character buffer flush timer callback (lines 815-820). -/
def fireUCharTimer (st : AgentState) (now : ℤ) : AgentState :=
  if st.uCharBuf ≠ [] then
    { (sendTextInternal st st.uCharBuf st.uCharLabel now) with
        uCharBuf := [], uCharTimer := none }
  else { st with uCharTimer := none }

/-! ### C4: growing-text convergence -/

/-- C4: feeding the stitcher the fragment sequence
`["H","He","Hel","Hell","Hello"]` with gaps under the 300 ms flush
timer (each growth step adds one character, well under the 50-character
bound) emits nothing while the fragments arrive, leaves the grow buffer
holding `"Hello"` with the flush timer armed for 300 ms after the last
fragment (the single-character timer having been cancelled), and firing
that flush timer emits exactly the one event `"Hello"`. -/
theorem growing_text_convergence (s t0 t1 t2 t3 t4 : ℤ)
    (h0 : s + 1000 ≤ t0) (h01 : t0 ≤ t1) (h12 : t1 ≤ t2) (h23 : t2 ≤ t3)
    (h34 : t3 ≤ t4)
    (g1 : t1 - t0 < 300) (g2 : t2 - t1 < 300) (g3 : t3 - t2 < 300)
    (g4 : t4 - t3 < 300) :
    (sendText (sendText (sendText (sendText (sendText (agentInit s)
        "H".toList "L".toList t0) "He".toList "L".toList t1)
        "Hel".toList "L".toList t2) "Hell".toList "L".toList t3)
        "Hello".toList "L".toList t4).sent = [] ∧
    (sendText (sendText (sendText (sendText (sendText (agentInit s)
        "H".toList "L".toList t0) "He".toList "L".toList t1)
        "Hel".toList "L".toList t2) "Hell".toList "L".toList t3)
        "Hello".toList "L".toList t4).growBuf = "Hello".toList ∧
    (sendText (sendText (sendText (sendText (sendText (agentInit s)
        "H".toList "L".toList t0) "He".toList "L".toList t1)
        "Hel".toList "L".toList t2) "Hell".toList "L".toList t3)
        "Hello".toList "L".toList t4).uCharTimer = none ∧
    (sendText (sendText (sendText (sendText (sendText (agentInit s)
        "H".toList "L".toList t0) "He".toList "L".toList t1)
        "Hel".toList "L".toList t2) "Hell".toList "L".toList t3)
        "Hello".toList "L".toList t4).growTimer = some (t4 + 300) ∧
    (fireGrowTimer (sendText (sendText (sendText (sendText (sendText (agentInit s)
        "H".toList "L".toList t0) "He".toList "L".toList t1)
        "Hel".toList "L".toList t2) "Hell".toList "L".toList t3)
        "Hello".toList "L".toList t4) (t4 + 300)).sent =
      [("Hello".toList, "L".toList)] ∧
    (fireGrowTimer (sendText (sendText (sendText (sendText (sendText (agentInit s)
        "H".toList "L".toList t0) "He".toList "L".toList t1)
        "Hel".toList "L".toList t2) "Hell".toList "L".toList t3)
        "Hello".toList "L".toList t4) (t4 + 300)).growSent = true := by
  have e1 : sendText (agentInit s) "H".toList "L".toList t0 =
      { agentInit s with uCharBuf := "H".toList, uCharLabel := "L".toList,
                         uCharTimer := some (t0 + 300) } := by
    unfold sendText
    rw [if_neg (by intro hx; simp [agentInit] at hx; linarith)]
    simp +decide [agentInit]
  have e2 : sendText
      ({ agentInit s with
          uCharBuf := "H".toList, uCharLabel := "L".toList,
          uCharTimer := some (t0 + 300) })
      "He".toList "L".toList t1 =
      { agentInit s with uCharBuf := [], uCharLabel := "L".toList, uCharTimer := none,
                         growBuf := "He".toList, growLabel := "L".toList,
                         growSent := false, growTimer := some (t1 + 300) } := by
    unfold sendText
    rw [if_neg (by intro hx; simp [agentInit] at hx; linarith)]
    simp +decide [agentInit]
  have e3 : sendText
      ({ agentInit s with
          uCharBuf := [], uCharLabel := "L".toList,
          uCharTimer := none, growBuf := "He".toList, growLabel := "L".toList,
          growSent := false, growTimer := some (t1 + 300) })
      "Hel".toList "L".toList t2 =
      { agentInit s with uCharBuf := [], uCharLabel := "L".toList, uCharTimer := none,
                         growBuf := "Hel".toList, growLabel := "L".toList,
                         growSent := false, growTimer := some (t2 + 300) } := by
    unfold sendText
    rw [if_neg (by intro hx; simp [agentInit] at hx; linarith)]
    simp +decide [agentInit]
  have e4 : sendText
      ({ agentInit s with
          uCharBuf := [], uCharLabel := "L".toList,
          uCharTimer := none, growBuf := "Hel".toList, growLabel := "L".toList,
          growSent := false, growTimer := some (t2 + 300) })
      "Hell".toList "L".toList t3 =
      { agentInit s with uCharBuf := [], uCharLabel := "L".toList, uCharTimer := none,
                         growBuf := "Hell".toList, growLabel := "L".toList,
                         growSent := false, growTimer := some (t3 + 300) } := by
    unfold sendText
    rw [if_neg (by intro hx; simp [agentInit] at hx; linarith)]
    simp +decide [agentInit]
  have e5 : sendText
      ({ agentInit s with
          uCharBuf := [], uCharLabel := "L".toList,
          uCharTimer := none, growBuf := "Hell".toList, growLabel := "L".toList,
          growSent := false, growTimer := some (t3 + 300) })
      "Hello".toList "L".toList t4 =
      { agentInit s with uCharBuf := [], uCharLabel := "L".toList, uCharTimer := none,
                         growBuf := "Hello".toList, growLabel := "L".toList,
                         growSent := false, growTimer := some (t4 + 300) } := by
    unfold sendText
    rw [if_neg (by intro hx; simp [agentInit] at hx; linarith)]
    simp +decide [agentInit]
  have e6 : fireGrowTimer
      ({ agentInit s with
          uCharBuf := [], uCharLabel := "L".toList,
          uCharTimer := none, growBuf := "Hello".toList, growLabel := "L".toList,
          growSent := false, growTimer := some (t4 + 300) })
      (t4 + 300) =
      { agentInit s with uCharBuf := [], uCharLabel := "L".toList, uCharTimer := none,
                         growBuf := "Hello".toList, growLabel := "L".toList,
                         growSent := true, growTimer := none,
                         lastText := "Hello".toList, lastTime := t4 + 300,
                         globalMsgCount := 1,
                         sent := [("Hello".toList, "L".toList)] } := by
    unfold fireGrowTimer sendTextInternal
    simp +decide [agentInit]
  rw [e1, e2, e3, e4, e5, e6]
  exact ⟨rfl, rfl, rfl, rfl, rfl, rfl⟩

/-- C4 witness: the scenario realised at concrete times (gaps of
100 ms, startup delay elapsed). -/
theorem growing_text_convergence_witness :
    ((0 : ℤ) + 1000 ≤ 2000 ∧ (2100 : ℤ) - 2000 < 300) ∧
    (fireGrowTimer (sendText (sendText (sendText (sendText (sendText (agentInit 0)
        "H".toList "L".toList 2000) "He".toList "L".toList 2100)
        "Hel".toList "L".toList 2200) "Hell".toList "L".toList 2300)
        "Hello".toList "L".toList 2400) (2400 + 300)).sent =
      [("Hello".toList, "L".toList)] :=
  ⟨⟨by norm_num, by norm_num⟩,
    (growing_text_convergence 0 2000 2100 2200 2300 2400 (by norm_num) (by norm_num)
      (by norm_num) (by norm_num) (by norm_num) (by norm_num) (by norm_num)
      (by norm_num) (by norm_num)).2.2.2.2.1⟩

/-! ### C5: character-doubling collapse -/

/-- A string in which every character is duplicated consecutively. -/
def doubleText : Text → Text
  | [] => []
  | a :: rest => a :: a :: doubleText rest

theorem pairsDouble_doubleText (s : Text) : pairsDouble (doubleText s) = true := by
  induction s with
  | nil => rfl
  | cons a rest ih => simp [doubleText, pairsDouble, ih]

theorem collapsePairs_doubleText (s : Text) : collapsePairs (doubleText s) = s := by
  induction s with
  | nil => rfl
  | cons a rest ih => simp [doubleText, collapsePairs, ih]

theorem length_doubleText (s : Text) : (doubleText s).length = 2 * s.length := by
  induction s with
  | nil => rfl
  | cons a rest ih => simp [doubleText, ih]; omega

theorem dupCount_cons_ge (a : Char) (l : Text) : dupCount l ≤ dupCount (a :: l) := by
  cases l with
  | nil => simp [dupCount]
  | cons b r =>
    show dupCount (b :: r) ≤ (if a = b then 1 else 0) + dupCount (b :: r)
    omega

theorem dupCount_doubleText (s : Text) : s.length ≤ dupCount (doubleText s) := by
  induction s with
  | nil => simp [doubleText, dupCount]
  | cons a rest ih =>
    show rest.length + 1 ≤ dupCount (a :: a :: doubleText rest)
    have h1 : dupCount (a :: a :: doubleText rest) =
        1 + dupCount (a :: doubleText rest) := by
      show (if a = a then 1 else 0) + dupCount (a :: doubleText rest) =
        1 + dupCount (a :: doubleText rest)
      simp
    have h2 := dupCount_cons_ge a (doubleText rest)
    omega

theorem collapseAdj_doubleText (s : Text) : collapseAdj (doubleText s) = s := by
  induction s with
  | nil => rfl
  | cons a rest ih => simp [doubleText, collapseAdj, ih]

/-- C5 counterexample: `"TT"` has every character duplicated
consecutively (100% of adjacent pairs identical), yet the emission path
sends it uncollapsed — its doubling collapse applies only from length 4
upward — so the claimed normalisation "one copy per pair before any
emission" fails at `"TT"`. -/
theorem char_doubling_counterexample :
    pairsDouble "TT".toList = true ∧
    (fireGrowTimer (sendText (agentInit 0) "TT".toList "L".toList 2000) 2300).sent =
      [("TT".toList, "L".toList)] := by
  constructor
  · decide
  · decide

/-- C5 (amended): a fragment in which every character is duplicated
consecutively is collapsed to one copy per pair by the glyph-path
`cleanDoubles` normalisation for every non-empty fragment (its ≥ 40%
adjacent-duplicate heuristic is always satisfied), including the
length-2 fragment `"TT"`, which `cleanDoubles` maps to `"T"`; the
emission path's doubling check collapses it only when its length is at
least 4 (that check requires an even length ≥ 4 with every even-indexed
pair identical); in particular `"TTeesstt"` fed to the stitcher is
emitted as `"Test"`. -/
theorem char_doubling_amended (s : Text) (hs : 1 ≤ s.length) :
    cleanDoubles (doubleText s) = s ∧
    (2 ≤ s.length →
      4 ≤ (doubleText s).length ∧ (doubleText s).length % 2 = 0 ∧
      pairsDouble (doubleText s) = true ∧ collapsePairs (doubleText s) = s) ∧
    cleanDoubles "TT".toList = "T".toList ∧
    (fireGrowTimer (sendText (agentInit 0) "TTeesstt".toList "G".toList 2000)
        2300).sent = [("Test".toList, "G".toList)] := by
  have hlen := length_doubleText s
  refine ⟨?_,
    fun h2 => ⟨by omega, by omega, pairsDouble_doubleText s, collapsePairs_doubleText s⟩,
    by decide, by decide⟩
  unfold cleanDoubles
  rw [if_neg (by omega)]
  rw [if_pos ?_]
  · exact collapseAdj_doubleText s
  · have := dupCount_doubleText s
    omega

/-- C5 witness: the amended statement realised at `s = "T"` (so
`doubleText s = "TT"`, the correction's own input, collapsed by
`cleanDoubles`) and at `s = "Te"` (discharging the length-2 side of the
emission-path conjunct), together with the `"TTeesstt"` pipeline run. -/
theorem char_doubling_amended_witness :
    (1 ≤ "T".toList.length ∧ cleanDoubles (doubleText "T".toList) = "T".toList) ∧
    (2 ≤ "Te".toList.length ∧ collapsePairs (doubleText "Te".toList) = "Te".toList) ∧
    (fireGrowTimer (sendText (agentInit 0) "TTeesstt".toList "G".toList 2000)
        2300).sent = [("Test".toList, "G".toList)] :=
  ⟨⟨by decide, (char_doubling_amended "T".toList (by decide)).1⟩,
    ⟨by decide,
      ((char_doubling_amended "Te".toList (by decide)).2.1 (by decide)).2.2.2⟩,
    (char_doubling_amended "T".toList (by decide)).2.2.2⟩

/-! ### C3: session invalidation (src/ui/main_window.py)

`MainWindow`'s hook-session bookkeeping: `_hook_session_id` is
incremented on every start (line 2868) and on every stop (line 3531);
both event callbacks drop payloads whose tag differs from the current
id (lines 2922-2927 and 2951-2956).  The `_hook_append_intercepted_text`
call and the realtime-translation dispatch at the end of the text
handler are modelled as appending to `intercepted` / `delivered`;
`log_message` as appending to `logMessages`. -/

structure MWState where
  hookSessionId : ℕ
  pendingPrefix : Text
  pendingPrefixTs : ℚ
  lastHookText : Text
  intercepted : List Text
  delivered : List Text
  logMessages : List Text
  relaunchConsidered : Bool
  hookLearned : Bool
  hookRunning : Bool
  hookAnyTextReceived : Bool
deriving DecidableEq

/-- A fresh `MainWindow` (all the `getattr(self, ..., default)` defaults). -/
def mwInit : MWState :=
  { hookSessionId := 0, pendingPrefix := [], pendingPrefixTs := 0, lastHookText := []
    intercepted := [], delivered := [], logMessages := []
    relaunchConsidered := false, hookLearned := false, hookRunning := false
    hookAnyTextReceived := false }

/-- The body of `_on_hook_text_received` after the session guard
(lines 2958-3005): strip; stash a single ASCII letter as pending
prefix; rejoin a pending one-letter prefix onto a lowercase
continuation arriving within 1.2 s; drop repeats of the last hook text;
record the payload and hand it to the translation pipeline unless it is
the `[HOOK_READY]` marker. -/
def processHookText (text : Text) (now : ℚ) (st : MWState) : MWState :=
  let payload := pstrip text
  if payload = [] then st
  else if payload.length = 1 ∧ singleAlpha payload then
    { st with pendingPrefix := payload, pendingPrefixTs := now }
  else
    let joined :=
      if st.pendingPrefix ≠ [] ∧ st.pendingPrefix.length = 1 ∧
          singleAlpha st.pendingPrefix ∧ now - st.pendingPrefixTs ≤ 6/5 ∧
          headLower payload ∧ ¬(jsStartsWith payload st.pendingPrefix) = true ∧
          payload.head? ≠ some ' '
      then st.pendingPrefix ++ payload else payload
    let st1 :=
      if st.pendingPrefix ≠ [] ∧ st.pendingPrefix.length = 1 ∧
          singleAlpha st.pendingPrefix
      then { st with pendingPrefix := [], pendingPrefixTs := 0 } else st
    if joined = st1.lastHookText then st1
    else
      let st2 := { st1 with lastHookText := joined
                            intercepted := st1.intercepted ++ [joined] }
      if jsStartsWith joined "[HOOK_READY]".toList then st2
      else { st2 with delivered := st2.delivered ++ [joined] }

/-- `MainWindow._on_hook_text_received` (lines 2951-2956 + body): the
session guard, then the payload processing. -/
def on_hook_text_received (sessionId : ℕ) (text : Text) (now : ℚ) (st : MWState) :
    MWState :=
  if sessionId ≠ st.hookSessionId then st
  else processHookText text now st

/-- `MainWindow._on_hook_status` (lines 2922-2949): the session guard,
the architecture-mismatch relaunch check, the learned-flag updates, and
the log append (suppressed for `Hook 日志未找到:` messages). -/
def on_hook_status (sessionId : ℕ) (status : Text) (st : MWState) : MWState :=
  if sessionId ≠ st.hookSessionId then st
  else
    let st1 :=
      if status ≠ [] ∧ (hasSub status "Hook架构不匹配".toList ∨
          hasSub status "Hook需要切换:".toList)
      then { st with relaunchConsidered := true } else st
    let st2 :=
      if status ≠ [] ∧ (hasSub status "已学习读取规则".toList ∨
          hasSub status "Hook钩子已就绪".toList ∨
          hasSub status "Hook外部端口监听".toList ∨
          hasSub status "Hook Frida 已启动".toList ∨
          hasSub status "Hook UIA 轮询已启动".toList)
      then { st1 with hookLearned := true }
      else if status ≠ [] ∧ (hasSub status "规则失效".toList ∨
          hasSub status "学习读取规则失败".toList)
      then { st1 with hookLearned := false }
      else st1
    if status ≠ [] ∧ ¬(jsStartsWith status "Hook 日志未找到:".toList) = true
    then { st2 with logMessages := st2.logMessages ++ [status] }
    else st2

/-- The session-id bookkeeping of `_start_hook_service`
(lines 2867-2916): increment the id, reset per-session text state, and
return the id captured by the new thread's callback closures. -/
def hookStart (st : MWState) : MWState × ℕ :=
  let nid := st.hookSessionId + 1
  ({ st with hookSessionId := nid, hookAnyTextReceived := false,
             lastHookText := [], hookRunning := true }, nid)

/-- `_stop_hook_service` (lines 3525-3553): increment the session id,
mark the service stopped and the learned flag cleared. -/
def hookStop (st : MWState) : MWState :=
  { st with hookSessionId := st.hookSessionId + 1, hookRunning := false
            hookLearned := false }

/-- C3: a text or status callback tagged with a session id other than
the current one is discarded with no effect on the consumer; the id is
incremented on every start and stop, so after stopping session A and
starting session B an in-flight callback tagged with A's id is never
observed by B's consumer. -/
theorem session_invalidation :
    (∀ (st : MWState) (sid : ℕ) (t s : Text) (now : ℚ),
      sid ≠ st.hookSessionId →
        on_hook_text_received sid t now st = st ∧ on_hook_status sid s st = st) ∧
    (∀ st : MWState, (hookStart st).1.hookSessionId = st.hookSessionId + 1 ∧
      (hookStart st).2 = st.hookSessionId + 1 ∧
      (hookStop st).hookSessionId = st.hookSessionId + 1) ∧
    (∀ (st0 : MWState) (t s : Text) (now : ℚ),
      (hookStart (hookStop (hookStart st0).1)).1.hookSessionId ≠ (hookStart st0).2 ∧
      on_hook_text_received (hookStart st0).2 t now
        (hookStart (hookStop (hookStart st0).1)).1 =
        (hookStart (hookStop (hookStart st0).1)).1 ∧
      on_hook_status (hookStart st0).2 s
        (hookStart (hookStop (hookStart st0).1)).1 =
        (hookStart (hookStop (hookStart st0).1)).1) := by
  have hguard : ∀ (st : MWState) (sid : ℕ) (t s : Text) (now : ℚ),
      sid ≠ st.hookSessionId →
      on_hook_text_received sid t now st = st ∧ on_hook_status sid s st = st := by
    intro st sid t s now hne
    constructor
    · unfold on_hook_text_received
      rw [if_pos hne]
    · unfold on_hook_status
      rw [if_pos hne]
  refine ⟨hguard, fun st => ⟨rfl, rfl, rfl⟩, ?_⟩
  intro st0 t s now
  have hid : (hookStart (hookStop (hookStart st0).1)).1.hookSessionId =
      st0.hookSessionId + 3 := rfl
  have hA : (hookStart st0).2 = st0.hookSessionId + 1 := rfl
  have hne : (hookStart st0).2 ≠ (hookStart (hookStop (hookStart st0).1)).1.hookSessionId := by
    rw [hid, hA]; omega
  exact ⟨fun hx => hne hx.symm,
    (hguard _ _ t s now hne).1, (hguard _ _ t s now hne).2⟩

/-- C3 witness: a stale callback tagged with id 5 against a fresh
window (current id 0) is a no-op for both signals. -/
theorem session_invalidation_witness :
    (5 : ℕ) ≠ mwInit.hookSessionId ∧
    on_hook_text_received 5 "Hello".toList 0 mwInit = mwInit ∧
    on_hook_status 5 "Hook钩子已就绪".toList mwInit = mwInit :=
  ⟨by decide,
    (session_invalidation.1 mwInit 5 "Hello".toList "Hook钩子已就绪".toList 0 (by decide)).1,
    (session_invalidation.1 mwInit 5 "Hello".toList "Hook钩子已就绪".toList 0 (by decide)).2⟩

/-! ### C9: the delegate helper's outbound rate limit
(`hook_agent.py`, `_send_text`, lines 45-61) -/

/-- The module-level rate limiter state of `hook_agent.py`
(`_msg_count`, `_msg_timer`) plus the payloads accepted through to
`_send_payload`. -/
structure AgentSendState where
  msgCount : ℕ
  msgTimer : ℚ
  accepted : List Text
deriving DecidableEq

/-- Module import state: `_msg_count = 0`, `_msg_timer = 0`. -/
def agentSendInit : AgentSendState := { msgCount := 0, msgTimer := 0, accepted := [] }

/-- `_send_text(host, port, text)`: strip and drop empties; restart the
rate window when more than 1 s has passed since `_msg_timer`; silently
drop once 20 messages have been counted in the window; otherwise count
and forward to `_send_payload`. -/
def send_text (st : AgentSendState) (text : Text) (now : ℚ) : AgentSendState :=
  let payload := pstrip text
  if payload = [] then st
  else
    let st := if now - st.msgTimer > 1 then { st with msgTimer := now, msgCount := 0 }
      else st
    if st.msgCount ≥ 20 then st
    else { st with msgCount := st.msgCount + 1, accepted := st.accepted ++ [payload] }

/-- A sequence of `_send_text` calls. -/
def runSend (st : AgentSendState) (calls : List (Text × ℚ)) : AgentSendState :=
  calls.foldl (fun s c => send_text s c.1 c.2) st

theorem runSend_nil (st : AgentSendState) : runSend st [] = st := rfl

theorem runSend_cons (st : AgentSendState) (c : Text × ℚ) (l : List (Text × ℚ)) :
    runSend st (c :: l) = runSend (send_text st c.1 c.2) l := rfl

theorem send_text_reset_accept (st : AgentSendState) (text : Text) (now : ℚ)
    (hne : pstrip text ≠ []) (hr : now - st.msgTimer > 1) :
    send_text st text now =
      { st with msgTimer := now, msgCount := 1, accepted := st.accepted ++ [pstrip text] } := by
  unfold send_text
  rw [if_neg hne, if_pos hr, if_neg (by simp)]

theorem send_text_accept (st : AgentSendState) (text : Text) (now : ℚ)
    (hne : pstrip text ≠ []) (hnr : ¬(now - st.msgTimer > 1)) (hc : st.msgCount < 20) :
    send_text st text now =
      { st with msgCount := st.msgCount + 1, accepted := st.accepted ++ [pstrip text] } := by
  unfold send_text
  rw [if_neg hne, if_neg hnr, if_neg (by omega)]

theorem send_text_reject (st : AgentSendState) (text : Text) (now : ℚ)
    (hne : pstrip text ≠ []) (hnr : ¬(now - st.msgTimer > 1)) (hc : 20 ≤ st.msgCount) :
    send_text st text now = st := by
  unfold send_text
  rw [if_neg hne, if_neg hnr, if_pos (by omega)]

theorem send_text_empty (st : AgentSendState) (text : Text) (now : ℚ)
    (h0 : pstrip text = []) : send_text st text now = st := by
  unfold send_text
  rw [if_pos h0]

/-- Within one rate window (no call is more than 1 s past the window
start), the accept counter never resets: at most `20 - msgCount` more
payloads are accepted and `msgTimer` is unchanged. -/
theorem runSend_no_reset_bound (calls : List (Text × ℚ)) :
    ∀ st : AgentSendState, (∀ c ∈ calls, ¬(c.2 - st.msgTimer > 1)) →
    (runSend st calls).accepted.length + min st.msgCount 20 ≤
      st.accepted.length + 20 ∧
    (runSend st calls).msgTimer = st.msgTimer := by
  induction calls with
  | nil =>
    intro st _
    refine ⟨?_, rfl⟩
    show st.accepted.length + min st.msgCount 20 ≤ st.accepted.length + 20
    omega
  | cons c rest ih =>
    intro st h
    have hc := h c (List.mem_cons_self c rest)
    have hrun : runSend st (c :: rest) = runSend (send_text st c.1 c.2) rest := rfl
    by_cases h0 : pstrip c.1 = []
    · rw [hrun, send_text_empty st c.1 c.2 h0]
      exact ih st (fun c' hc' => h c' (List.mem_cons_of_mem c hc'))
    · by_cases h20 : st.msgCount ≥ 20
      · rw [hrun, send_text_reject st c.1 c.2 h0 hc h20]
        exact ih st (fun c' hc' => h c' (List.mem_cons_of_mem c hc'))
      · rw [hrun, send_text_accept st c.1 c.2 h0 hc (by omega)]
        set st1 : AgentSendState := { st with msgCount := st.msgCount + 1, accepted := st.accepted ++ [pstrip c.1] } with hst1
        have hrest : ∀ c' ∈ rest, ¬(c'.2 - st1.msgTimer > 1) :=
          fun c' hc' => h c' (List.mem_cons_of_mem c hc')
        obtain ⟨hlen, htimer⟩ := ih st1 hrest
        refine ⟨?_, htimer⟩
        have hlen1 : st1.accepted.length = st.accepted.length + 1 := by
          simp [hst1]
        have hcnt : st1.msgCount = st.msgCount + 1 := rfl
        rw [hlen1, hcnt] at hlen
        omega

/-- `n` identical fresh calls within the current window: the counter
saturates at 20 and exactly `min (msgCount + n) 20 - msgCount` payloads
are accepted. -/
theorem runSend_const (n : ℕ) (text : Text) (now : ℚ) :
    ∀ st : AgentSendState, pstrip text ≠ [] → ¬(now - st.msgTimer > 1) →
    st.msgCount ≤ 20 →
    (runSend st (List.replicate n (text, now))).accepted.length =
      st.accepted.length + (min (st.msgCount + n) 20 - st.msgCount) ∧
    (runSend st (List.replicate n (text, now))).msgCount =
      min (st.msgCount + n) 20 ∧
    (runSend st (List.replicate n (text, now))).msgTimer = st.msgTimer := by
  induction n with
  | zero =>
    intro st _ _ hle
    refine ⟨?_, ?_, rfl⟩
    · show st.accepted.length = st.accepted.length + (min (st.msgCount + 0) 20 - st.msgCount)
      omega
    · show st.msgCount = min (st.msgCount + 0) 20
      omega
  | succ m ih =>
    intro st hne hnr hle
    have hrun : runSend st (List.replicate (m + 1) (text, now)) =
        runSend (send_text st text now) (List.replicate m (text, now)) := rfl
    rw [hrun]
    by_cases h20 : st.msgCount = 20
    · rw [send_text_reject st text now hne hnr (by omega)]
      obtain ⟨e1, e2, e3⟩ := ih st hne hnr hle
      refine ⟨?_, ?_, e3⟩
      · rw [e1]; omega
      · rw [e2]; omega
    · rw [send_text_accept st text now hne hnr (by omega)]
      set st1 : AgentSendState := { st with msgCount := st.msgCount + 1, accepted := st.accepted ++ [pstrip text] } with hst1
      have hnr1 : ¬(now - st1.msgTimer > 1) := hnr
      obtain ⟨e1, e2, e3⟩ := ih st1 hne hnr1 (by show st.msgCount + 1 ≤ 20; omega)
      have hacc : st1.accepted.length = st.accepted.length + 1 := by simp [hst1]
      have hcnt : st1.msgCount = st.msgCount + 1 := rfl
      refine ⟨?_, ?_, e3⟩
      · rw [e1, hacc, hcnt]; omega
      · rw [e2, hcnt]; omega

/-- C9 counterexample: a 50-line burst spanning 0.6 s but straddling a
rate-window restart.  One earlier message at t = 1000 s starts a
window; 25 burst lines arrive at t = 1000.9 s (19 accepted before the
counter saturates) and 25 more at t = 1001.5 s (the window restarts, 20
more accepted): 39 of the 50 burst lines are accepted, not at most 20
(40 accepted in total, of which 1 predates the burst). -/
theorem rate_limit_counterexample :
    (List.replicate 25 (("b".toList : Text), (10009 : ℚ)/10) ++
        (("c".toList, (10015 : ℚ)/10) ::
          List.replicate 24 (("d".toList : Text), (10015 : ℚ)/10))).length = 50 ∧
    (10015 : ℚ)/10 - (10009 : ℚ)/10 < 1 ∧
    (runSend agentSendInit [("a".toList, 1000)]).accepted.length = 1 ∧
    (runSend (runSend agentSendInit [("a".toList, 1000)])
        (List.replicate 25 (("b".toList : Text), (10009 : ℚ)/10) ++
          (("c".toList, (10015 : ℚ)/10) ::
            List.replicate 24 (("d".toList : Text), (10015 : ℚ)/10)))).accepted.length
      = 40 := by
  have hpre : runSend agentSendInit [("a".toList, 1000)] =
      { msgCount := 1, msgTimer := 1000, accepted := [pstrip "a".toList] } := by
    rw [runSend_cons, send_text_reset_accept agentSendInit "a".toList 1000 (by decide)
      (by norm_num [agentSendInit]), runSend_nil]
    simp [agentSendInit]
  have happend : ∀ (st : AgentSendState) (l1 l2 : List (Text × ℚ)),
      runSend st (l1 ++ l2) = runSend (runSend st l1) l2 := by
    intro st l1 l2
    simp [runSend, List.foldl_append]
  refine ⟨by simp, by norm_num, by rw [hpre]; rfl, ?_⟩
  rw [hpre, happend]
  set stP : AgentSendState := { msgCount := 1, msgTimer := 1000, accepted := [pstrip "a".toList] } with hstP
  obtain ⟨f1, f2, f3⟩ := runSend_const 25 "b".toList ((10009 : ℚ)/10) stP (by decide)
    (by norm_num [hstP]) (by norm_num [hstP])
  set stB : AgentSendState := runSend stP (List.replicate 25 ("b".toList, (10009 : ℚ)/10))
    with hstB
  have hrun2 := runSend_cons stB ("c".toList, (10015 : ℚ)/10)
    (List.replicate 24 (("d".toList : Text), (10015 : ℚ)/10))
  have hreset : send_text stB "c".toList ((10015 : ℚ)/10) =
      { stB with msgTimer := (10015 : ℚ)/10, msgCount := 1, accepted := stB.accepted ++ [pstrip "c".toList] } := by
    refine send_text_reset_accept stB "c".toList ((10015 : ℚ)/10) (by decide) ?_
    rw [f3]
    norm_num [hstP]
  rw [hrun2, hreset]
  set stC : AgentSendState := { stB with msgTimer := (10015 : ℚ)/10, msgCount := 1, accepted := stB.accepted ++ [pstrip "c".toList] } with hstC
  obtain ⟨g1, g2, g3⟩ := runSend_const 24 "d".toList ((10015 : ℚ)/10) stC (by decide)
    (by norm_num [hstC]) (by show (1 : ℕ) ≤ 20; omega)
  rw [g1]
  have hBlen : stB.accepted.length = 20 := by
    rw [hstB, f1]
    norm_num [hstP]
  have hClen : stC.accepted.length = 21 := by
    simp [hstC, hBlen]
  rw [hClen]
  norm_num

/-- C9 (amended): the delegate accepts at most 20 messages per
rate-limiter window, where a window restarts only when a message
arrives more than one second after the recorded window start; a burst
confined to one window — in particular any burst starting from the
delegate's initial state, whose first line restarts the window —
yields at most 20 accepted sends, whatever its length (50 included).  A
burst that straddles a window restart can exceed 20 (see the
counterexample). -/
theorem rate_limit_amended (c1 : Text × ℚ) (rest : List (Text × ℚ))
    (hne : pstrip c1.1 ≠ []) (ht1 : 1 < c1.2)
    (hrest : ∀ c ∈ rest, c.2 - c1.2 ≤ 1) :
    (runSend agentSendInit (c1 :: rest)).accepted.length ≤ 20 := by
  have hstep : runSend agentSendInit (c1 :: rest) =
      runSend (send_text agentSendInit c1.1 c1.2) rest := rfl
  have hreset : send_text agentSendInit c1.1 c1.2 =
      { agentSendInit with msgTimer := c1.2, msgCount := 1, accepted := agentSendInit.accepted ++ [pstrip c1.1] } := by
    refine send_text_reset_accept agentSendInit c1.1 c1.2 hne ?_
    show c1.2 - agentSendInit.msgTimer > 1
    simp only [agentSendInit]
    linarith
  rw [hstep, hreset]
  set st1 : AgentSendState := { agentSendInit with msgTimer := c1.2, msgCount := 1, accepted := agentSendInit.accepted ++ [pstrip c1.1] } with hst1
  have hcond : ∀ c ∈ rest, ¬(c.2 - st1.msgTimer > 1) := by
    intro c hc
    have := hrest c hc
    show ¬(c.2 - c1.2 > 1)
    linarith
  have hbound := (runSend_no_reset_bound rest st1 hcond).1
  have h1 : st1.accepted.length = 1 := by simp [hst1, agentSendInit]
  have h2 : st1.msgCount = 1 := rfl
  rw [h1, h2] at hbound
  omega

/-- C9 witness: three quick lines right after delegate start are all
within the first window and at most 20 are accepted. -/
theorem rate_limit_amended_witness :
    (pstrip "x".toList ≠ [] ∧ (1 : ℚ) < 2000) ∧
    (runSend agentSendInit [("x".toList, 2000), ("y".toList, 20005/10),
      ("z".toList, 20008/10)]).accepted.length ≤ 20 :=
  ⟨⟨by decide, by norm_num⟩,
    rate_limit_amended ("x".toList, 2000)
      [("y".toList, 20005/10), ("z".toList, 20008/10)]
      (by decide) (by norm_num)
      (by
        intro c hc
        simp only [List.mem_cons, List.mem_singleton] at hc
        rcases hc with h | h | h
        · rw [h]; norm_num
        · rw [h]; norm_num
        · cases h)⟩

/-! ### C8: architecture-mismatch degraded mode
(`HookTextThread.run`, lines 2473-2652, and `_find_32bit_agent`,
lines 180-202)

The probe results, the filesystem, and the subprocess launch are
abstracted as parameters: `_find_32bit_agent` walks an ordered
candidate list with an existence predicate; `run`'s architecture branch
is modelled from the detection messages through the channel-thread
starts and the `_enable_win_event` guard (the model assumes the
Windows/ctypes imports succeed, as on the claim's platform; every
branch is total, mirroring the source's blanket `try/except` — no
exception reaches the consumer). -/

/-- `HookTextThread._find_32bit_agent`: first existing candidate path,
else `None`. -/
def find_32bit_agent (existsAt : String → Bool) (candidates : List String) :
    Option String :=
  candidates.find? existsAt

/-- What the modelled portion of `run` produces and leaves behind. -/
structure ArchSetupResult where
  statuses : List Text
  winEventEnabled : Bool
  uiaEnabled : Bool
  fridaEnabled : Bool
  socketStarted : Bool
  uiaStarted : Bool
  fridaStarted : Bool
  agentLaunched : Bool
  returnedEarly : Bool
  socketOnlyMode : Bool
deriving DecidableEq

/-- The channel-thread starts at lines 2583-2609 followed by the
`_enable_win_event` guard at lines 2645-2652 (socket-only serving
loop). -/
def startChannels (r0 : ArchSetupResult) (enableSocket portSet : Bool) :
    ArchSetupResult :=
  let r1 := if enableSocket ∧ portSet then { r0 with socketStarted := true } else r0
  let r2 := if r1.uiaEnabled then { r1 with uiaStarted := true } else r1
  let r3 := if r2.fridaEnabled then
      { r2 with fridaStarted := true,
                statuses := r2.statuses ++ ["Hook Frida 线程已启动".toList] }
    else r2
  if ¬r3.winEventEnabled then
    { r3 with statuses := r3.statuses ++ ["Hook钩子仅启动外部端口".toList],
              socketOnlyMode := true }
  else r3

/-- The architecture-detection branch of `run` (lines 2473-2652). -/
def runArchSetup (targetArch pyArch : String) (isAgent : Bool)
    (agentPath : Option String) (enableWinEvent enableSocket enableUia enableFrida
    portSet : Bool) : ArchSetupResult :=
  let base : ArchSetupResult :=
    { statuses := [], winEventEnabled := enableWinEvent, uiaEnabled := enableUia,
      fridaEnabled := enableFrida, socketStarted := false, uiaStarted := false,
      fridaStarted := false, agentLaunched := false, returnedEarly := false,
      socketOnlyMode := false }
  let archMsg : Text :=
    ("Hook架构检测: 目标进程 " ++ targetArch ++ " / Python " ++ pyArch).toList
  if targetArch ≠ "unknown" ∧ pyArch ≠ "unknown" then
    let r := { base with statuses := [archMsg] }
    if targetArch ≠ pyArch then
      let warnMsgs : List Text :=
        ["Hook架构不匹配，32位游戏请使用32位Python/Frida运行".toList,
          ("Hook需要切换: " ++ targetArch).toList]
      let r := { r with statuses := r.statuses ++ warnMsgs,
                        winEventEnabled := false, uiaEnabled := false,
                        fridaEnabled := false }
      if isAgent then
        let agentMsg : Text :=
          ("HookAgent (" ++ pyArch ++ ") 无法注入目标 (" ++ targetArch ++
            ") - 架构不匹配").toList
        { r with statuses := r.statuses ++ [agentMsg], returnedEarly := true }
      else
        let r := match agentPath with
          | some p =>
            let launchMsgs : List Text :=
              [("Hook 尝试启动 32 位辅助进程: " ++ p).toList,
                "Hook 32 位辅助进程已启动".toList]
            { r with statuses := r.statuses ++ launchMsgs, agentLaunched := true }
          | none =>
            { r with statuses := r.statuses ++
                ["Hook 未找到 32 位 HookAgent，无法注入 32 位进程".toList] }
        if ¬enableSocket then { r with returnedEarly := true }
        else startChannels r enableSocket portSet
    else startChannels r enableSocket portSet
  else startChannels { base with statuses := [archMsg] } enableSocket portSet

/-- C8: with the target probed 32-bit on a 64-bit host and no helper
binary at any candidate path, `_find_32bit_agent` returns `None`, the
session emits a status containing the `未找到` marker, the win-event,
accessibility and instrumentation channels are all disabled and not
started, and the session keeps running in socket-ingest-only mode (the
socket thread is started and the thread enters the socket-only serving
loop instead of returning). -/
theorem arch_mismatch_degraded (existsAt : String → Bool) (candidates : List String)
    (hnone : ∀ c ∈ candidates, existsAt c = false) :
    find_32bit_agent existsAt candidates = none ∧
    ((runArchSetup "x86" "x64" false (find_32bit_agent existsAt candidates)
        true true true true true).statuses.any
        (fun m => hasSub m "未找到".toList)) = true ∧
    (runArchSetup "x86" "x64" false (find_32bit_agent existsAt candidates)
        true true true true true).winEventEnabled = false ∧
    (runArchSetup "x86" "x64" false (find_32bit_agent existsAt candidates)
        true true true true true).uiaEnabled = false ∧
    (runArchSetup "x86" "x64" false (find_32bit_agent existsAt candidates)
        true true true true true).fridaEnabled = false ∧
    (runArchSetup "x86" "x64" false (find_32bit_agent existsAt candidates)
        true true true true true).uiaStarted = false ∧
    (runArchSetup "x86" "x64" false (find_32bit_agent existsAt candidates)
        true true true true true).fridaStarted = false ∧
    (runArchSetup "x86" "x64" false (find_32bit_agent existsAt candidates)
        true true true true true).agentLaunched = false ∧
    (runArchSetup "x86" "x64" false (find_32bit_agent existsAt candidates)
        true true true true true).socketStarted = true ∧
    (runArchSetup "x86" "x64" false (find_32bit_agent existsAt candidates)
        true true true true true).returnedEarly = false ∧
    (runArchSetup "x86" "x64" false (find_32bit_agent existsAt candidates)
        true true true true true).socketOnlyMode = true := by
  have hfind : find_32bit_agent existsAt candidates = none := by
    unfold find_32bit_agent
    rw [List.find?_eq_none]
    intro x hx
    simp [hnone x hx]
  rw [hfind]
  refine ⟨rfl, ?_, ?_, ?_, ?_, ?_, ?_, ?_, ?_, ?_, ?_⟩ <;> decide

/-- C8 witness: the candidate list shape of `_find_32bit_agent` with an
empty filesystem — no path exists, and the degraded-mode facts follow. -/
theorem arch_mismatch_degraded_witness :
    (∀ c ∈ ([ "dist/ScreenTranslator-x86/HookAgent/HookAgent.exe",
        "ScreenTranslator-x86/HookAgent/HookAgent.exe",
        "ScreenTranslator-x86/HookAgent.exe",
        "../ScreenTranslator-x86/HookAgent/HookAgent.exe",
        "HookAgent-x86/HookAgent.exe",
        "HookAgent/HookAgent.exe" ] : List String), (fun _ => false) c = false) ∧
    find_32bit_agent (fun _ => false)
      [ "dist/ScreenTranslator-x86/HookAgent/HookAgent.exe",
        "ScreenTranslator-x86/HookAgent/HookAgent.exe",
        "ScreenTranslator-x86/HookAgent.exe",
        "../ScreenTranslator-x86/HookAgent/HookAgent.exe",
        "HookAgent-x86/HookAgent.exe",
        "HookAgent/HookAgent.exe" ] = none ∧
    ((runArchSetup "x86" "x64" false (find_32bit_agent (fun _ => false)
        [ "dist/ScreenTranslator-x86/HookAgent/HookAgent.exe",
          "ScreenTranslator-x86/HookAgent/HookAgent.exe",
          "ScreenTranslator-x86/HookAgent.exe",
          "../ScreenTranslator-x86/HookAgent/HookAgent.exe",
          "HookAgent-x86/HookAgent.exe",
          "HookAgent/HookAgent.exe" ])
        true true true true true).statuses.any
        (fun m => hasSub m "未找到".toList)) = true :=
  ⟨fun c _ => rfl,
    (arch_mismatch_degraded (fun _ => false) _ (fun c _ => rfl)).1,
    (arch_mismatch_degraded (fun _ => false) _ (fun c _ => rfl)).2.1⟩

end ScreenTranslator
